import Mathlib

/-!
Verification of the Sentinel microstructure-monitor analytics core
(`CircularBuffer.ts` and `AnalyticsEngine.ts`) against its specification.

Modelling conventions:
* JavaScript numbers are modelled as exact rationals (`ℚ`); the volatility
  evaluator's standard deviations, which require a square root, are modelled
  over the reals (`ℝ`).
* `Math.round x` is `round x` (both are `⌊x + 1/2⌋`).
* `Date.now()` is modelled as an explicit parameter `now : ℤ` threaded to the
  functions that read the ambient clock, and the random suffix drawn by
  `Math.floor(Math.random() * 999)` in `detectCriticalEvent` is modelled as an
  explicit parameter `rand : ℕ` (used modulo 999).
* TypeScript string-enum values are closed inductive types plus a `…Name`
  function giving the string the enum member denotes.
* Record types keep the source field names; `Record<string, T>` objects with a
  fixed key set become association lists in insertion order.
-/

namespace Sentinel

/-- The five stress levels of the `StressLevel` enum. -/
inductive StressLevel where
  | STABLE
  | ELEVATED
  | STRESSED
  | UNSTABLE
  | CRITICAL
deriving DecidableEq

/-- String value of a `StressLevel` enum member. -/
def StressLevel.name : StressLevel → String
  | .STABLE => "STABLE"
  | .ELEVATED => "ELEVATED"
  | .STRESSED => "STRESSED"
  | .UNSTABLE => "UNSTABLE"
  | .CRITICAL => "CRITICAL"

/-- The `ConfidenceLevel` enum. -/
inductive ConfidenceLevel where
  | LOW
  | MEDIUM
  | HIGH
deriving DecidableEq

/-- String value of a `ConfidenceLevel` enum member. -/
def ConfidenceLevel.name : ConfidenceLevel → String
  | .LOW => "LOW"
  | .MEDIUM => "MEDIUM"
  | .HIGH => "HIGH"

/-- The `SignalType` enum. -/
inductive SignalType where
  | LIQUIDITY
  | FLOW
  | VOLATILITY
  | FORCED_SELLING
deriving DecidableEq

/-- String value of a `SignalType` enum member. -/
def SignalType.name : SignalType → String
  | .LIQUIDITY => "Liquidity Fragility"
  | .FLOW => "Order Flow Imbalance"
  | .VOLATILITY => "Volatility Regime Shift"
  | .FORCED_SELLING => "Forced Selling"

/-- Trade side: the `'buy' | 'sell'` union. -/
inductive Side where
  | buy
  | sell
deriving DecidableEq

/-- The `Trade` interface. -/
structure Trade where
  id : ℤ
  price : ℚ
  quantity : ℚ
  timestamp : ℤ
  side : Side
deriving DecidableEq

/-- The aggregated `trades` field of a tick. -/
structure TradeStats where
  buy_volume : ℚ
  sell_volume : ℚ
  buy_count : ℕ
  sell_count : ℕ
  large_trades : List Trade
deriving DecidableEq

/-- The `'GOOD' | 'DEGRADED' | 'STALE'` data-quality union. -/
inductive DataQuality where
  | GOOD
  | DEGRADED
  | STALE
deriving DecidableEq

/-- The `NormalizedMarketTick` interface (order-book level lists kept as
price/size pairs; they are not read by the analytics engine). -/
structure NormalizedMarketTick where
  exchange_timestamp : ℤ
  received_timestamp : ℤ
  processing_timestamp : ℤ
  price : ℚ
  volume_24h : ℚ
  bids : List (ℚ × ℚ)
  asks : List (ℚ × ℚ)
  trades : TradeStats
  mid_price : ℚ
  spread : ℚ
  spread_bps : ℚ
  total_depth : ℚ
  is_valid : Bool
  data_quality : DataQuality
deriving DecidableEq

/-- `CircularBuffer<T>`: backing array, fixed capacity, write cursor. -/
structure CircularBuffer (α : Type) where
  buffer : List α
  maxSize : ℕ
  head : ℕ
deriving DecidableEq

namespace CircularBuffer

/-- The `constructor(maxSize)`: empty backing array, cursor at 0. -/
def mkEmpty (α : Type) (maxSize : ℕ) : CircularBuffer α :=
  { buffer := [], maxSize := maxSize, head := 0 }

/-- `push(item)`: append while under capacity, else overwrite the slot at the
write cursor and advance it circularly. -/
def push (s : CircularBuffer α) (item : α) : CircularBuffer α :=
  if s.buffer.length < s.maxSize then
    { s with buffer := s.buffer ++ [item] }
  else
    { s with buffer := s.buffer.set s.head item,
             head := (s.head + 1) % s.maxSize }

/-- `getAll()`: the contents in chronological order, reading `size` slots
starting at the write cursor, wrapping modulo `size`. -/
def getAll (s : CircularBuffer α) : List α :=
  List.ofFn fun i : Fin s.buffer.length =>
    s.buffer.get ⟨(s.head + i) % s.buffer.length, Nat.mod_lt _ i.pos⟩

/-- `mean()`: 0 on an empty buffer, else sum divided by length. -/
def mean (s : CircularBuffer ℚ) : ℚ :=
  if s.buffer.length = 0 then 0 else s.buffer.sum / s.buffer.length

/-- `size()`. -/
def size (s : CircularBuffer α) : ℕ :=
  s.buffer.length

/-- `clear()`: resets to the empty state, keeping the capacity. -/
def clear (s : CircularBuffer α) : CircularBuffer α :=
  { buffer := [], maxSize := s.maxSize, head := 0 }

end CircularBuffer

/-- Decimal rendering of an already-scaled integer `n` with `d` decimals,
shared by the rational and real models of JavaScript's `toFixed`. -/
def formatFixed (n : ℤ) (d : ℕ) : String :=
  let sign := if n < 0 then "-" else ""
  let digits := toString n.natAbs
  if d = 0 then sign ++ digits
  else
    let padded :=
      if digits.length < d + 1 then
        String.mk (List.replicate (d + 1 - digits.length) '0') ++ digits
      else digits
    sign ++ padded.dropRight d ++ "." ++ padded.takeRight d

/-- `x.toFixed(d)` for a rational-modelled JavaScript number: round
`x·10^d` to the nearest integer (ties toward +∞, as in ECMA-262) and render
with `d` decimals. -/
def toFixed (q : ℚ) (d : ℕ) : String :=
  formatFixed (round (q * (10 : ℚ) ^ d)) d

/-- `x.toFixed(d)` for a real-modelled JavaScript number. -/
noncomputable def toFixedR (x : ℝ) (d : ℕ) : String :=
  formatFixed (round (x * (10 : ℝ) ^ d)) d

/-- The `SignalOutput` interface.  `raw_metrics` is the key/value object in
insertion order; `value` is the `Math.round`ed risk, hence an integer. -/
structure SignalOutput where
  name : SignalType
  value : ℤ
  severity : StressLevel
  triggered : Bool
  raw_metrics : List (String × String)
  explanation : String
  confidence : ConfidenceLevel
  timestamp : ℤ
deriving DecidableEq

/-- `AnalyticsEngine.determineConfidence(value, highThreshold, medThreshold)`. -/
def determineConfidence (value highThreshold medThreshold : ℚ) : ConfidenceLevel :=
  if value ≥ highThreshold then .HIGH
  else if value ≥ medThreshold then .MEDIUM
  else .LOW

/-- `AnalyticsEngine.getSeverity(risk)` — the per-signal severity bucket. -/
def getSeverity (risk : ℚ) : StressLevel :=
  if risk < 30 then .STABLE
  else if risk < 50 then .ELEVATED
  else if risk < 75 then .STRESSED
  else .CRITICAL

/-- `AnalyticsEngine.getSeverity` evaluated on a real-modelled risk (used by
the volatility evaluator). -/
noncomputable def getSeverityR (risk : ℝ) : StressLevel :=
  if risk < 30 then .STABLE
  else if risk < 50 then .ELEVATED
  else if risk < 75 then .STRESSED
  else .CRITICAL

/-- `AnalyticsEngine.classifyLevel(score)` — the global level classifier. -/
def classifyLevel (score : ℚ) : StressLevel :=
  if score < 25 then .STABLE
  else if score < 50 then .ELEVATED
  else if score < 75 then .STRESSED
  else if score < 90 then .UNSTABLE
  else .CRITICAL

/-- `AnalyticsEngine.getStressRank(level)`. -/
def getStressRank : StressLevel → ℕ
  | .STABLE => 0
  | .ELEVATED => 1
  | .STRESSED => 2
  | .UNSTABLE => 3
  | .CRITICAL => 4

/-- `AnalyticsEngine.defaultSignal(name, ts)`. -/
def defaultSignal (name : SignalType) (ts : ℤ) : SignalOutput :=
  { name := name, value := 0, severity := .STABLE, triggered := false,
    raw_metrics := [], explanation := "Insufficient data.",
    confidence := .LOW, timestamp := ts }

/-- `AnalyticsEngine.processLiquidity(tick)`: pushes the tick's depth into the
liquidity window (a state change, returned as the second component), compares
the depth against the window mean, and converts a depth drop into a risk. -/
def processLiquidity (buf : CircularBuffer ℚ) (tick : NormalizedMarketTick) :
    SignalOutput × CircularBuffer ℚ :=
  let buf2 := buf.push tick.total_depth
  let baseline := buf2.mean
  let depthChange : ℚ :=
    if baseline = 0 then 0 else ((tick.total_depth - baseline) / baseline) * 100
  let risk : ℚ := if depthChange ≥ 0 then 0 else min 100 ((-depthChange / 40) * 100)
  let confidence := determineConfidence (buf2.size : ℚ) 60 20
  ({ name := .LIQUIDITY,
     value := round risk,
     severity := getSeverity risk,
     triggered := decide (risk > 60),
     raw_metrics := [("Depth", toFixed tick.total_depth 1),
                     ("Δ Mean", toFixed depthChange 1 ++ "%")],
     explanation :=
       if risk > 60 then
         "Liquidity hole: " ++ toFixed |depthChange| 1 ++ "% below baseline."
       else "Depth within stable range.",
     confidence := confidence,
     timestamp := tick.processing_timestamp }, buf2)

/-- `AnalyticsEngine.processFlow(tick)`: stateless sell-pressure evaluator;
`totalVol == 0` falls back to the default signal, and the displayed imbalance
ratio guards a zero denominator with `|| 0.01`. -/
def processFlow (tick : NormalizedMarketTick) : SignalOutput :=
  let totalVol := tick.trades.buy_volume + tick.trades.sell_volume
  if totalVol = 0 then defaultSignal .FLOW tick.processing_timestamp
  else
    let sellRatio := tick.trades.sell_volume / totalVol
    let risk : ℚ := max 0 ((sellRatio - 1/2) * 200)
    let confidence := determineConfidence totalVol 2 (1/2)
    { name := .FLOW,
      value := round risk,
      severity := getSeverity risk,
      triggered := decide (risk > 65),
      raw_metrics :=
        [("Sell %", toFixed (sellRatio * 100) 1 ++ "%"),
         ("Imbalance",
          toFixed (sellRatio / (if 1 - sellRatio = 0 then 1/100 else 1 - sellRatio)) 2)],
      explanation :=
        if risk > 65 then "Aggressive market selling detected."
        else "Transaction flow is balanced.",
      confidence := confidence,
      timestamp := tick.processing_timestamp }

/-- `AnalyticsEngine.processForcedSelling(tick)`: sums the quantities of the
tick's large sell trades. -/
def processForcedSelling (tick : NormalizedMarketTick) : SignalOutput :=
  let largeSells := tick.trades.large_trades.filter fun t => decide (t.side = .sell)
  let totalLargeVol := (largeSells.map Trade.quantity).sum
  let risk : ℚ := min 100 ((totalLargeVol / 5) * 100)
  let totalTrades := tick.trades.buy_count + tick.trades.sell_count
  let confidence := determineConfidence (totalTrades : ℚ) 50 10
  { name := .FORCED_SELLING,
    value := round risk,
    severity := getSeverity risk,
    triggered := decide (risk > 45),
    raw_metrics := [("Whale Vol", toFixed totalLargeVol 1),
                    ("Count", toString largeSells.length)],
    explanation :=
      if risk > 45 then
        "Large seller active: " ++ toFixed totalLargeVol 1 ++ " BTC sold in blocks."
      else "No significant whale selling detected.",
    confidence := confidence,
    timestamp := tick.processing_timestamp }

/-- The local `getStd` closure of `processVolatility`: population standard
deviation (square root of the mean squared deviation from the mean). -/
noncomputable def getStd (arr : List ℝ) : ℝ :=
  let m := arr.sum / arr.length
  Real.sqrt ((arr.map fun b => (b - m) ^ 2).sum / arr.length)

/-- `AnalyticsEngine.processVolatility(tick)`: pushes the price into the price
window, requires at least 20 samples, and compares the standard deviation of
the last 10 prices against that of the whole window (`|| 1` replaces a zero
denominator by 1). -/
noncomputable def processVolatility (buf : CircularBuffer ℚ)
    (tick : NormalizedMarketTick) : SignalOutput × CircularBuffer ℚ :=
  let buf2 := buf.push tick.price
  let prices := buf2.getAll
  if prices.length < 20 then (defaultSignal .VOLATILITY tick.processing_timestamp, buf2)
  else
    let shortTerm := prices.drop (prices.length - 10)
    let stdShort := getStd (shortTerm.map fun q : ℚ => (q : ℝ))
    let stdLongRaw := getStd (prices.map fun q : ℚ => (q : ℝ))
    let stdLong := if stdLongRaw = 0 then 1 else stdLongRaw
    let ratio := stdShort / stdLong
    let risk : ℝ := min 100 (max 0 ((ratio - 1) * 50))
    let confidence := determineConfidence (prices.length : ℚ) 50 30
    ({ name := .VOLATILITY,
       value := round risk,
       severity := getSeverityR risk,
       triggered := if risk > 55 then true else false,
       raw_metrics := [("Vol Ratio", toFixedR ratio 2),
                       ("Price Std", toFixedR stdShort 2)],
       explanation :=
         if risk > 55 then "Price instability detected via volatility expansion."
         else "Price volatility within regime bounds.",
       confidence := confidence,
       timestamp := tick.processing_timestamp }, buf2)

/-- The fixed `weights` table of the engine. -/
def weights : SignalType → ℚ
  | .LIQUIDITY => 35/100
  | .FLOW => 25/100
  | .VOLATILITY => 25/100
  | .FORCED_SELLING => 15/100

/-- `THEME.stress` colour table from `constants.tsx`. -/
def stressColor : StressLevel → String
  | .STABLE => "#10b981"
  | .ELEVATED => "#eab308"
  | .STRESSED => "#f97316"
  | .UNSTABLE => "#ef4444"
  | .CRITICAL => "#dc2626"

/-- The `signals` record built by `processTick` (keys in insertion order:
LIQUIDITY, FLOW, VOLATILITY, FORCED_SELLING). -/
structure Signals where
  liquidity : SignalOutput
  flow : SignalOutput
  volatility : SignalOutput
  forcedSelling : SignalOutput
deriving DecidableEq

/-- `Object.values(signals)` in insertion order. -/
def Signals.values (s : Signals) : List SignalOutput :=
  [s.liquidity, s.flow, s.volatility, s.forcedSelling]

/-- Lookup `signals[t]` by signal type. -/
def Signals.get (s : Signals) : SignalType → SignalOutput
  | .LIQUIDITY => s.liquidity
  | .FLOW => s.flow
  | .VOLATILITY => s.volatility
  | .FORCED_SELLING => s.forcedSelling

/-- The `WeightContribution` interface. -/
structure WeightContribution where
  signal : SignalType
  weight : ℚ
  raw_value : ℤ
  contribution : ℚ
  pct_of_total : ℚ
deriving DecidableEq

/-- The `breakdown` object of a `StressScore`. -/
structure Breakdown where
  liquidity : ℤ
  flow : ℤ
  volatility : ℤ
  forcedSelling : ℤ
deriving DecidableEq

/-- The `StressScore` interface. -/
structure StressScore where
  score : ℤ
  raw_score : ℚ
  level : StressLevel
  color : String
  signals_aligned : ℕ
  confidence : ConfidenceLevel
  breakdown : Breakdown
  timestamp : ℤ
deriving DecidableEq

/-- The `DecisionTrace` interface (`confidence_reasons` in insertion order). -/
structure DecisionTrace where
  weight_contributions : List WeightContribution
  raw_score : ℚ
  signals_aligned : ℕ
  shock_multiplier : ℚ
  pre_smooth_score : ℚ
  smoothing_alpha : ℚ
  previous_score : ℚ
  final_score : ℤ
  confidence_reasons : List (SignalType × String)
  audit_narrative : String
  timestamp : ℤ
deriving DecidableEq

/-- Numeric value of a confidence level used for fusion (HIGH 3, MEDIUM 2,
else 1). -/
def confNum : ConfidenceLevel → ℕ
  | .HIGH => 3
  | .MEDIUM => 2
  | .LOW => 1

/-- Head of `[...wcs].sort((a, b) => b.contribution - a.contribution)`: a
stable descending sort's first element is the first entry attaining the
maximal contribution, computed here by a left fold keeping on ties. -/
def dominantOf (hd : WeightContribution) (tl : List WeightContribution) :
    WeightContribution :=
  tl.foldl (fun acc c => if c.contribution > acc.contribution then c else acc) hd

/-- `AnalyticsEngine.calculateStressWithTrace(signals, tick)`.

Inputs beyond the signal record are the pieces of engine state the method
reads: `previousStress` (`this.previousStress`), the liquidity and price
window fill counts `liqSize`/`priceSize` (read for the confidence-reason
strings), and the clock reading `now` (`Date.now()`).  Returns the
`StressScore`, the `DecisionTrace`, and the *unrounded* smoothed stress that
the method stores back into `this.previousStress`. -/
def calculateStressWithTrace (signals : Signals) (previousStress : ℚ)
    (liqSize priceSize : ℕ) (now : ℤ) : StressScore × DecisionTrace × ℚ :=
  let sigArray := signals.values
  let rawStress : ℚ :=
    signals.liquidity.value * weights .LIQUIDITY
    + signals.flow.value * weights .FLOW
    + signals.volatility.value * weights .VOLATILITY
    + signals.forcedSelling.value * weights .FORCED_SELLING
  let activeSignals := (sigArray.filter fun s => s.triggered).length
  let shockMultiplier : ℚ := 1 + activeSignals * (8/100)
  let targetStress : ℚ := min 100 (rawStress * shockMultiplier)
  let alpha : ℚ := if targetStress > previousStress then 35/100 else 15/100
  let smoothedStress : ℚ := alpha * targetStress + (1 - alpha) * previousStress
  let finalScore : ℤ := round smoothedStress
  let level := classifyLevel smoothedStress
  let confValues := sigArray.map fun s => confNum s.confidence
  let avgConf : ℚ := ((confValues.map fun k : ℕ => (k : ℚ)).sum) / confValues.length
  let globalConfidence : ConfidenceLevel :=
    if avgConf > 5/2 then .HIGH else if avgConf > 3/2 then .MEDIUM else .LOW
  let weight_contributions : List WeightContribution :=
    sigArray.map fun sig =>
      let weight := weights sig.name
      let contribution : ℚ := sig.value * weight
      { signal := sig.name, weight := weight, raw_value := sig.value,
        contribution := contribution,
        pct_of_total := if rawStress > 0 then contribution / rawStress * 100 else 0 }
  let confidence_reasons : List (SignalType × String) :=
    [(.LIQUIDITY, toString liqSize ++ " depth samples (need ≥60 for HIGH)"),
     (.VOLATILITY, toString priceSize ++ " price ticks (need ≥50 for HIGH)"),
     (.FLOW, "Based on volume density — need ≥2.0 BTC/s for HIGH"),
     (.FORCED_SELLING, "Based on trade frequency — need ≥50 trades for HIGH")]
  let dominant : WeightContribution :=
    match weight_contributions with
    | [] => { signal := .LIQUIDITY, weight := 0, raw_value := 0,
              contribution := 0, pct_of_total := 0 }
    | h :: t => dominantOf h t
  let audit_narrative : String :=
    "Dominant contributor: " ++ (dominant.signal).name ++ " ("
    ++ toFixed (dominant.weight * 100) 0 ++ "% weight × "
    ++ toString dominant.raw_value ++ " raw = "
    ++ toFixed dominant.contribution 1 ++ " pts, "
    ++ toFixed dominant.pct_of_total 1 ++ "% of raw score). Raw weighted score: "
    ++ toFixed rawStress 1 ++ " pts. "
    ++ (if activeSignals > 0 then
          "Shock multiplier " ++ toFixed shockMultiplier 2 ++ "× applied because "
          ++ toString activeSignals
          ++ " signal(s) triggered simultaneously, elevating score to "
          ++ toFixed targetStress 1 ++ ". "
        else "")
    ++ "Stress is "
    ++ (if targetStress > previousStress then "rising" else "falling")
    ++ ", so adaptive smoothing alpha = "
    ++ (if alpha = 35/100 then "0.35" else "0.15") ++ " ("
    ++ (if alpha = 35/100 then "fast-track — system escalates quickly"
        else "slow-decay — system de-escalates conservatively")
    ++ "). Final score: " ++ toString finalScore ++ " (" ++ level.name
    ++ "). System confidence: " ++ globalConfidence.name ++ "."
  let trace : DecisionTrace :=
    { weight_contributions := weight_contributions,
      raw_score := rawStress,
      signals_aligned := activeSignals,
      shock_multiplier := shockMultiplier,
      pre_smooth_score := targetStress,
      smoothing_alpha := alpha,
      previous_score := previousStress,
      final_score := finalScore,
      confidence_reasons := confidence_reasons,
      audit_narrative := audit_narrative,
      timestamp := now }
  let stress : StressScore :=
    { score := finalScore,
      raw_score := rawStress,
      level := level,
      color := stressColor level,
      signals_aligned := activeSignals,
      confidence := globalConfidence,
      breakdown :=
        { liquidity := signals.liquidity.value, flow := signals.flow.value,
          volatility := signals.volatility.value,
          forcedSelling := signals.forcedSelling.value },
      timestamp := now }
  (stress, trace, smoothedStress)

/-- One entry of the engine's `triggerOrder` history. -/
structure TriggerEntry where
  signal : SignalType
  timestamp : ℤ
  initialValue : ℤ
deriving DecidableEq

/-- Classification of a causal step: the `'CATALYST' | 'AMPLIFIER' |
'SYSTEMIC'` union. -/
inductive StepType where
  | CATALYST
  | AMPLIFIER
  | SYSTEMIC
deriving DecidableEq

/-- The `CausalStep` interface. -/
structure CausalStep where
  sequence_id : ℕ
  type : StepType
  signal : SignalType
  description : String
  severity : StressLevel
  timestamp : ℤ
deriving DecidableEq

/-- The `CausalSequence` interface. -/
structure CausalSequence where
  active : Bool
  steps : List CausalStep
  catalyst_id : Option SignalType
  narrative : String
  risk_assessment : String
deriving DecidableEq

/-- `AnalyticsEngine.generateNarrative(steps, stress)`. -/
def generateNarrative (steps : List CausalStep) : String :=
  match steps with
  | [] => ""
  | c :: rest =>
    if rest.length = 0 then "Event initiated by " ++ (c.signal).name ++ "."
    else
      let systemicCount := ((c :: rest).filter fun s => decide (s.type = .SYSTEMIC)).length
      if systemicCount > 0 then
        "Systemic breakdown initiated by " ++ (c.signal).name
        ++ ", now exacerbated by " ++ toString rest.length
        ++ " secondary amplifiers."
      else
        "Tension detected in " ++ (c.signal).name ++ ", causing feedback in "
        ++ (((c :: rest).getLast (by simp)).signal).name ++ "."

/-- The body of the `forEach` in `buildCausalSequence`: append a first-trigger
entry for `s` (stamped with the current `Date.now()` reading) unless the
history already holds one for the same signal. -/
def appendTrigger (now : ℤ) (ord : List TriggerEntry) (s : SignalOutput) :
    List TriggerEntry :=
  if ord.any fun t => decide (t.signal = s.name) then ord
  else ord ++ [{ signal := s.name, timestamp := now, initialValue := s.value }]

/-- `AnalyticsEngine.buildCausalSequence(stress, signals)`.

Takes the engine's `triggerOrder` history and the clock reading `now`
(`Date.now()` at first-trigger recording); returns the chain together with the
updated history the engine stores back. -/
def buildCausalSequence (triggerOrder : List TriggerEntry) (stress : StressScore)
    (signals : Signals) (now : ℤ) : CausalSequence × List TriggerEntry :=
  let activeSignalEntries := signals.values.filter fun s => s.triggered
  if activeSignalEntries.length = 0 then
    ({ active := false, steps := [], catalyst_id := none, narrative := "",
       risk_assessment := "" }, [])
  else
    let t1 := activeSignalEntries.foldl (appendTrigger now) triggerOrder
    let t2 := t1.filter fun t => (signals.get t.signal).triggered
    let steps : List CausalStep :=
      (t2.enum).map fun p =>
        let signalData := signals.get p.2.signal
        let type : StepType :=
          if p.1 = 0 then .CATALYST
          else if stress.score > 70 then .SYSTEMIC else .AMPLIFIER
        { sequence_id := p.1 + 1, type := type, signal := p.2.signal,
          description := signalData.explanation,
          severity := signalData.severity,
          timestamp := p.2.timestamp }
    let catalyst : Option SignalType := (t2.head?).map TriggerEntry.signal
    let narrative := generateNarrative steps
    ({ active := true, steps := steps, catalyst_id := catalyst,
       narrative := narrative,
       risk_assessment :=
         if stress.score > 80 then "CRITICAL: Structural failure imminent."
         else if stress.score > 60 then "UNSTABLE: Corrective action likely insufficient."
         else "ELEVATED: Monitoring catalyst propagation." }, t2)

/-- The `CriticalEvent` interface.  `primary_factor` is the catalyst's enum
string or the `'Unknown Catalyst'` sentinel. -/
structure CriticalEvent where
  id : String
  timestamp : ℤ
  price : ℚ
  stress_score : ℤ
  level : StressLevel
  primary_factor : String
  narrative : String
  signals : List SignalType
deriving DecidableEq

/-- `AnalyticsEngine.detectCriticalEvent(tick, stress, causal)`.

Takes the engine's stored previous level and previous aligned-signal count and
the modelled random suffix `rand` (for `Math.floor(Math.random() * 999)`, used
modulo 999); returns the optional event together with the updated previous
level and count stored back (unconditionally) by the method. -/
def detectCriticalEvent (previousLevel : StressLevel)
    (previousSignalsAligned : ℕ) (tick : NormalizedMarketTick)
    (stress : StressScore) (causal : CausalSequence) (rand : ℕ) :
    Option CriticalEvent × StressLevel × ℕ :=
  let levelUpgrade :=
    decide (getStressRank stress.level > getStressRank previousLevel)
    && decide (getStressRank stress.level ≥ 2)
  let alignmentIncrease :=
    decide (stress.signals_aligned > previousSignalsAligned)
    && decide (stress.score > 60)
  if levelUpgrade || alignmentIncrease then
    (some
      { id := "forensic_" ++ toString tick.exchange_timestamp ++ "_"
              ++ toString (rand % 999),
        timestamp := tick.exchange_timestamp,
        price := tick.price,
        stress_score := stress.score,
        level := stress.level,
        primary_factor :=
          match causal.catalyst_id with
          | some s => s.name
          | none => "Unknown Catalyst",
        narrative := causal.narrative,
        signals := causal.steps.map CausalStep.signal },
     stress.level, stress.signals_aligned)
  else
    (none, stress.level, stress.signals_aligned)

/-- The engine's mutable state (`AnalyticsEngine`'s private fields). -/
structure AnalyticsEngine where
  liquidityBuffer : CircularBuffer ℚ
  priceBuffer : CircularBuffer ℚ
  volBuffer : CircularBuffer ℚ
  previousStress : ℚ
  previousLevel : StressLevel
  previousSignalsAligned : ℕ
  lastTrace : Option DecisionTrace
  triggerOrder : List TriggerEntry

/-- A freshly constructed engine (field initializers of the class). -/
def AnalyticsEngine.init : AnalyticsEngine :=
  { liquidityBuffer := CircularBuffer.mkEmpty ℚ 300,
    priceBuffer := CircularBuffer.mkEmpty ℚ 300,
    volBuffer := CircularBuffer.mkEmpty ℚ 60,
    previousStress := 0,
    previousLevel := .STABLE,
    previousSignalsAligned := 0,
    lastTrace := none,
    triggerOrder := [] }

/-- `AnalyticsEngine.reset()`. -/
def AnalyticsEngine.reset (e : AnalyticsEngine) : AnalyticsEngine :=
  { liquidityBuffer := e.liquidityBuffer.clear,
    priceBuffer := e.priceBuffer.clear,
    volBuffer := e.volBuffer.clear,
    previousStress := 0,
    previousLevel := .STABLE,
    previousSignalsAligned := 0,
    lastTrace := none,
    triggerOrder := [] }

/-- The per-tick output bundle of `processTick`. -/
structure TickOutput where
  signals : Signals
  stress : StressScore
  causal : CausalSequence
  criticalEvent : Option CriticalEvent
  trace : DecisionTrace

/-- `AnalyticsEngine.processTick(tick)`: evaluate the four signals, aggregate
stress and the trace, build the causal chain, detect a critical event, and
return the bundle together with the mutated engine state.  `now` models the
`Date.now()` clock and `rand` the event-id random suffix. -/
noncomputable def AnalyticsEngine.processTick (e : AnalyticsEngine)
    (tick : NormalizedMarketTick) (now : ℤ) (rand : ℕ) :
    TickOutput × AnalyticsEngine :=
  let liq := processLiquidity e.liquidityBuffer tick
  let flow := processFlow tick
  let vol := processVolatility e.priceBuffer tick
  let forced := processForcedSelling tick
  let signals : Signals :=
    { liquidity := liq.1, flow := flow, volatility := vol.1, forcedSelling := forced }
  let agg := calculateStressWithTrace signals e.previousStress
    liq.2.size vol.2.size now
  let causal := buildCausalSequence e.triggerOrder agg.1 signals now
  let ev := detectCriticalEvent e.previousLevel e.previousSignalsAligned
    tick agg.1 causal.1 rand
  ({ signals := signals, stress := agg.1, causal := causal.1,
     criticalEvent := ev.1, trace := agg.2.1 },
   { liquidityBuffer := liq.2,
     priceBuffer := vol.2,
     volBuffer := e.volBuffer,
     previousStress := agg.2.2,
     previousLevel := ev.2.1,
     previousSignalsAligned := ev.2.2,
     lastTrace := some agg.2.1,
     triggerOrder := causal.2 })

/-- Sequential driving of the engine: one `(tick, now, rand)` triple per
`processTick` call. -/
noncomputable def runEngine (e : AnalyticsEngine) :
    List (NormalizedMarketTick × ℤ × ℕ) → List TickOutput × AnalyticsEngine
  | [] => ([], e)
  | input :: rest =>
    let step := e.processTick input.1 input.2.1 input.2.2
    let tail := runEngine step.2 rest
    (step.1 :: tail.1, tail.2)

/-! ### Concrete fixtures shared by several theorems -/

/-- A signal record with the given type, value and trigger flag (other fields
neutral), used to instantiate aggregator-level statements. -/
def mkSig (n : SignalType) (v : ℤ) (trig : Bool) : SignalOutput :=
  { name := n, value := v, severity := .STABLE, triggered := trig,
    raw_metrics := [], explanation := "", confidence := .LOW, timestamp := 0 }

/-- The signal inputs of spec Scenario B: liquidity 80 and triggered, the
other three signals 0 and untriggered. -/
def sigsScenarioB : Signals :=
  { liquidity := mkSig .LIQUIDITY 80 true,
    flow := mkSig .FLOW 0 false,
    volatility := mkSig .VOLATILITY 0 false,
    forcedSelling := mkSig .FORCED_SELLING 0 false }

/-- A neutral tick (all numeric fields 0, no trades). -/
def tick0 : NormalizedMarketTick :=
  { exchange_timestamp := 0, received_timestamp := 0, processing_timestamp := 0,
    price := 0, volume_24h := 0, bids := [], asks := [],
    trades := { buy_volume := 0, sell_volume := 0, buy_count := 0, sell_count := 0,
                large_trades := [] },
    mid_price := 0, spread := 0, spread_bps := 0, total_depth := 0,
    is_valid := true, data_quality := .GOOD }

/-- A stress score with the given level, rounded score and aligned count
(other fields neutral). -/
def stressAt (lvl : StressLevel) (score : ℤ) (aligned : ℕ) : StressScore :=
  { score := score, raw_score := 0, level := lvl, color := stressColor lvl,
    signals_aligned := aligned, confidence := .LOW,
    breakdown := { liquidity := 0, flow := 0, volatility := 0, forcedSelling := 0 },
    timestamp := 0 }

/-- The signal inputs of spec Scenario A: all four signals 0, untriggered. -/
def sigsScenarioA : Signals :=
  { liquidity := mkSig .LIQUIDITY 0 false,
    flow := mkSig .FLOW 0 false,
    volatility := mkSig .VOLATILITY 0 false,
    forcedSelling := mkSig .FORCED_SELLING 0 false }

/-- The inactive causal chain. -/
def emptyCausal : CausalSequence :=
  { active := false, steps := [], catalyst_id := none, narrative := "",
    risk_assessment := "" }

/-- Signal records whose `name` fields match their position in the record, as
produced by the four evaluators (each evaluator stamps its own type). -/
def canonicalNames (s : Signals) : Prop :=
  s.liquidity.name = .LIQUIDITY ∧ s.flow.name = .FLOW ∧
  s.volatility.name = .VOLATILITY ∧ s.forcedSelling.name = .FORCED_SELLING

/-- Push a whole list, oldest first, into a fresh buffer of capacity `N`. -/
def pushAll {α : Type} (N : ℕ) (xs : List α) : CircularBuffer α :=
  xs.foldl CircularBuffer.push (CircularBuffer.mkEmpty α N)

/-- Representation invariant of the ring buffer: after pushing `xs` into a
fresh buffer of capacity `N`, the backing array holds the last `min |xs| N`
items, rotated so that slot `i` holds the pushed item at position
`|xs| - N + ((i + N - head) % N)`, with the write cursor at `(|xs| - N) % N`. -/
def BufInv {α : Type} (N : ℕ) (xs : List α) (s : CircularBuffer α) : Prop :=
  s.maxSize = N ∧
  s.buffer.length = min xs.length N ∧
  s.head = (xs.length - N) % N ∧
  ∀ i, i < s.buffer.length →
    s.buffer[i]? = xs[(xs.length - N) + ((i + N - s.head) % N)]?

/-- C3's claimed volatility-risk formula, written from the spec's words: the
"long" population standard deviation is floored to 1, i.e. `max(stddev, 1)`. -/
noncomputable def claimedVolatilityRisk (window : List ℚ) : ℝ :=
  let pr : List ℝ := window.map fun q : ℚ => (q : ℝ)
  let short := getStd (pr.drop (pr.length - 10))
  let long := max (getStd pr) 1
  min 100 (max 0 ((short / long - 1) * 50))

/-- A 19-sample price window: ten prices 1.5, five prices 0, four prices 2.
With the next pushed price 2, the whole window has standard deviation 3/4 and
the last ten prices have standard deviation 1. -/
def vol19 : List ℚ :=
  [3/2, 3/2, 3/2, 3/2, 3/2, 3/2, 3/2, 3/2, 3/2, 3/2, 0, 0, 0, 0, 0, 2, 2, 2, 2]

/-- The neutral tick with price 2. -/
def tickP2 : NormalizedMarketTick := { tick0 with price := 2 }

/-- Population standard deviation via the second-moment formula
`sqrt(E[X²] - E[X]²)` — an independent reference formulation. -/
noncomputable def stddevPop (l : List ℝ) : ℝ :=
  Real.sqrt ((l.map fun x => x ^ 2).sum / l.length - (l.sum / l.length) ^ 2)

/-- The last `n` elements of a list, via reverse/take/reverse — an independent
reference formulation of `slice(-n)`. -/
def lastN {β : Type} (n : ℕ) (l : List β) : List β :=
  (l.reverse.take n).reverse

/-- C3 (amended reference model): the volatility risk with the long standard
deviation replaced by 1 only when it is exactly 0 — the actual `|| 1` guard —
rather than floored with `max`. -/
noncomputable def amendedVolatilityRisk (window : List ℚ) : ℝ :=
  let pr : List ℝ := window.map fun q : ℚ => (q : ℝ)
  let short := stddevPop (lastN 10 pr)
  let longRaw := stddevPop pr
  let long := if longRaw = 0 then 1 else longRaw
  min 100 (max 0 ((short / long - 1) * 50))

/-- Well-formed tick for the score-range invariant: large-trade quantities are
nonnegative (the upstream feed contract; all other guards are unconditional). -/
def WfTick (t : NormalizedMarketTick) : Prop :=
  ∀ tr ∈ t.trades.large_trades, 0 ≤ tr.quantity

/-! ### Guarded-division variants

Each division the engine performs is re-expressed with an explicit
zero-denominator check returning `none`; proving the checked pipeline equal to
`some` of the unchecked one shows no division by a zero denominator (and hence
no non-finite value or exception) occurs anywhere in the per-tick pipeline. -/

/-- Rational division failing on a zero denominator. -/
def divQ (a b : ℚ) : Option ℚ := if b = 0 then none else some (a / b)

/-- Real division failing on a zero denominator. -/
noncomputable def divR (a b : ℝ) : Option ℝ := if b = 0 then none else some (a / b)

/-- `CircularBuffer.mean` with its division guarded. -/
def meanChecked (s : CircularBuffer ℚ) : Option ℚ :=
  if s.buffer.length = 0 then some 0 else divQ s.buffer.sum (s.buffer.length : ℚ)

/-- `processLiquidity` with every division guarded. -/
def processLiquidityChecked (buf : CircularBuffer ℚ) (tick : NormalizedMarketTick) :
    Option (SignalOutput × CircularBuffer ℚ) := do
  let buf2 := buf.push tick.total_depth
  let baseline ← meanChecked buf2
  let depthChange ←
    if baseline = 0 then some 0
    else do
      let q ← divQ (tick.total_depth - baseline) baseline
      some (q * 100)
  let riskRaw ← divQ (-depthChange) 40
  let risk := if depthChange ≥ 0 then 0 else min 100 (riskRaw * 100)
  let confidence := determineConfidence (buf2.size : ℚ) 60 20
  some ({ name := .LIQUIDITY,
          value := round risk,
          severity := getSeverity risk,
          triggered := decide (risk > 60),
          raw_metrics := [("Depth", toFixed tick.total_depth 1),
                          ("Δ Mean", toFixed depthChange 1 ++ "%")],
          explanation :=
            if risk > 60 then
              "Liquidity hole: " ++ toFixed |depthChange| 1 ++ "% below baseline."
            else "Depth within stable range.",
          confidence := confidence,
          timestamp := tick.processing_timestamp }, buf2)

/-- `processFlow` with every division guarded. -/
def processFlowChecked (tick : NormalizedMarketTick) : Option SignalOutput := do
  let totalVol := tick.trades.buy_volume + tick.trades.sell_volume
  if totalVol = 0 then some (defaultSignal .FLOW tick.processing_timestamp)
  else do
    let sellRatio ← divQ tick.trades.sell_volume totalVol
    let risk : ℚ := max 0 ((sellRatio - 1/2) * 200)
    let confidence := determineConfidence totalVol 2 (1/2)
    let imb ← divQ sellRatio (if 1 - sellRatio = 0 then 1/100 else 1 - sellRatio)
    some { name := .FLOW,
           value := round risk,
           severity := getSeverity risk,
           triggered := decide (risk > 65),
           raw_metrics :=
             [("Sell %", toFixed (sellRatio * 100) 1 ++ "%"),
              ("Imbalance", toFixed imb 2)],
           explanation :=
             if risk > 65 then "Aggressive market selling detected."
             else "Transaction flow is balanced.",
           confidence := confidence,
           timestamp := tick.processing_timestamp }

/-- `processForcedSelling` with its division guarded. -/
def processForcedSellingChecked (tick : NormalizedMarketTick) : Option SignalOutput := do
  let largeSells := tick.trades.large_trades.filter fun t => decide (t.side = .sell)
  let totalLargeVol := (largeSells.map Trade.quantity).sum
  let riskRaw ← divQ totalLargeVol 5
  let risk : ℚ := min 100 (riskRaw * 100)
  let totalTrades := tick.trades.buy_count + tick.trades.sell_count
  let confidence := determineConfidence (totalTrades : ℚ) 50 10
  some { name := .FORCED_SELLING,
         value := round risk,
         severity := getSeverity risk,
         triggered := decide (risk > 45),
         raw_metrics := [("Whale Vol", toFixed totalLargeVol 1),
                         ("Count", toString largeSells.length)],
         explanation :=
           if risk > 45 then
             "Large seller active: " ++ toFixed totalLargeVol 1 ++ " BTC sold in blocks."
           else "No significant whale selling detected.",
         confidence := confidence,
         timestamp := tick.processing_timestamp }

/-- `getStd` with its divisions guarded. -/
noncomputable def getStdChecked (arr : List ℝ) : Option ℝ := do
  let m ← divR arr.sum (arr.length : ℝ)
  let v ← divR ((arr.map fun b => (b - m) ^ 2).sum) (arr.length : ℝ)
  some (Real.sqrt v)

/-- `processVolatility` with every division guarded. -/
noncomputable def processVolatilityChecked (buf : CircularBuffer ℚ)
    (tick : NormalizedMarketTick) : Option (SignalOutput × CircularBuffer ℚ) := do
  let buf2 := buf.push tick.price
  let prices := buf2.getAll
  if prices.length < 20 then
    some (defaultSignal .VOLATILITY tick.processing_timestamp, buf2)
  else do
    let shortTerm := prices.drop (prices.length - 10)
    let stdShort ← getStdChecked (shortTerm.map fun q : ℚ => (q : ℝ))
    let stdLongRaw ← getStdChecked (prices.map fun q : ℚ => (q : ℝ))
    let stdLong := if stdLongRaw = 0 then 1 else stdLongRaw
    let ratio ← divR stdShort stdLong
    let risk : ℝ := min 100 (max 0 ((ratio - 1) * 50))
    let confidence := determineConfidence (prices.length : ℚ) 50 30
    some ({ name := .VOLATILITY,
            value := round risk,
            severity := getSeverityR risk,
            triggered := if risk > 55 then true else false,
            raw_metrics := [("Vol Ratio", toFixedR ratio 2),
                            ("Price Std", toFixedR stdShort 2)],
            explanation :=
              if risk > 55 then "Price instability detected via volatility expansion."
              else "Price volatility within regime bounds.",
            confidence := confidence,
            timestamp := tick.processing_timestamp }, buf2)

/-- One weight-contribution record with the `pct_of_total` division guarded. -/
def wcChecked (rawStress : ℚ) (sig : SignalOutput) : Option WeightContribution := do
  let weight := weights sig.name
  let contribution : ℚ := sig.value * weight
  let pct ←
    if rawStress > 0 then do
      let q ← divQ contribution rawStress
      some (q * 100)
    else some 0
  some { signal := sig.name, weight := weight, raw_value := sig.value,
         contribution := contribution, pct_of_total := pct }

/-- `calculateStressWithTrace` with every division guarded. -/
def calculateStressWithTraceChecked (signals : Signals) (previousStress : ℚ)
    (liqSize priceSize : ℕ) (now : ℤ) : Option (StressScore × DecisionTrace × ℚ) := do
  let sigArray := signals.values
  let rawStress : ℚ :=
    signals.liquidity.value * weights .LIQUIDITY
    + signals.flow.value * weights .FLOW
    + signals.volatility.value * weights .VOLATILITY
    + signals.forcedSelling.value * weights .FORCED_SELLING
  let activeSignals := (sigArray.filter fun s => s.triggered).length
  let shockMultiplier : ℚ := 1 + activeSignals * (8/100)
  let targetStress : ℚ := min 100 (rawStress * shockMultiplier)
  let alpha : ℚ := if targetStress > previousStress then 35/100 else 15/100
  let smoothedStress : ℚ := alpha * targetStress + (1 - alpha) * previousStress
  let finalScore : ℤ := round smoothedStress
  let level := classifyLevel smoothedStress
  let confValues := sigArray.map fun s => confNum s.confidence
  let avgConf ← divQ ((confValues.map fun k : ℕ => (k : ℚ)).sum) (confValues.length : ℚ)
  let globalConfidence : ConfidenceLevel :=
    if avgConf > 5/2 then .HIGH else if avgConf > 3/2 then .MEDIUM else .LOW
  let weight_contributions ← sigArray.mapM (wcChecked rawStress)
  let confidence_reasons : List (SignalType × String) :=
    [(.LIQUIDITY, toString liqSize ++ " depth samples (need ≥60 for HIGH)"),
     (.VOLATILITY, toString priceSize ++ " price ticks (need ≥50 for HIGH)"),
     (.FLOW, "Based on volume density — need ≥2.0 BTC/s for HIGH"),
     (.FORCED_SELLING, "Based on trade frequency — need ≥50 trades for HIGH")]
  let dominant : WeightContribution :=
    match weight_contributions with
    | [] => { signal := .LIQUIDITY, weight := 0, raw_value := 0,
              contribution := 0, pct_of_total := 0 }
    | h :: t => dominantOf h t
  let audit_narrative : String :=
    "Dominant contributor: " ++ (dominant.signal).name ++ " ("
    ++ toFixed (dominant.weight * 100) 0 ++ "% weight × "
    ++ toString dominant.raw_value ++ " raw = "
    ++ toFixed dominant.contribution 1 ++ " pts, "
    ++ toFixed dominant.pct_of_total 1 ++ "% of raw score). Raw weighted score: "
    ++ toFixed rawStress 1 ++ " pts. "
    ++ (if activeSignals > 0 then
          "Shock multiplier " ++ toFixed shockMultiplier 2 ++ "× applied because "
          ++ toString activeSignals
          ++ " signal(s) triggered simultaneously, elevating score to "
          ++ toFixed targetStress 1 ++ ". "
        else "")
    ++ "Stress is "
    ++ (if targetStress > previousStress then "rising" else "falling")
    ++ ", so adaptive smoothing alpha = "
    ++ (if alpha = 35/100 then "0.35" else "0.15") ++ " ("
    ++ (if alpha = 35/100 then "fast-track — system escalates quickly"
        else "slow-decay — system de-escalates conservatively")
    ++ "). Final score: " ++ toString finalScore ++ " (" ++ level.name
    ++ "). System confidence: " ++ globalConfidence.name ++ "."
  let trace : DecisionTrace :=
    { weight_contributions := weight_contributions,
      raw_score := rawStress,
      signals_aligned := activeSignals,
      shock_multiplier := shockMultiplier,
      pre_smooth_score := targetStress,
      smoothing_alpha := alpha,
      previous_score := previousStress,
      final_score := finalScore,
      confidence_reasons := confidence_reasons,
      audit_narrative := audit_narrative,
      timestamp := now }
  let stress : StressScore :=
    { score := finalScore,
      raw_score := rawStress,
      level := level,
      color := stressColor level,
      signals_aligned := activeSignals,
      confidence := globalConfidence,
      breakdown :=
        { liquidity := signals.liquidity.value, flow := signals.flow.value,
          volatility := signals.volatility.value,
          forcedSelling := signals.forcedSelling.value },
      timestamp := now }
  some (stress, trace, smoothedStress)

/-- The full `processTick` pipeline over the guarded components. -/
noncomputable def processTickChecked (e : AnalyticsEngine)
    (tick : NormalizedMarketTick) (now : ℤ) (rand : ℕ) :
    Option (TickOutput × AnalyticsEngine) := do
  let liq ← processLiquidityChecked e.liquidityBuffer tick
  let flow ← processFlowChecked tick
  let vol ← processVolatilityChecked e.priceBuffer tick
  let forced ← processForcedSellingChecked tick
  let signals : Signals :=
    { liquidity := liq.1, flow := flow, volatility := vol.1, forcedSelling := forced }
  let agg ← calculateStressWithTraceChecked signals e.previousStress
    liq.2.size vol.2.size now
  let causal := buildCausalSequence e.triggerOrder agg.1 signals now
  let ev := detectCriticalEvent e.previousLevel e.previousSignalsAligned
    tick agg.1 causal.1 rand
  some ({ signals := signals, stress := agg.1, causal := causal.1,
          criticalEvent := ev.1, trace := agg.2.1 },
        { liquidityBuffer := liq.2,
          priceBuffer := vol.2,
          volBuffer := e.volBuffer,
          previousStress := agg.2.2,
          previousLevel := ev.2.1,
          previousSignalsAligned := ev.2.2,
          lastTrace := some agg.2.1,
          triggerOrder := causal.2 })


/-! ### Claim theorems -/

/-- C1: Scenario B aggregation — with previous smoothed score 0 and signal
values liquidity = 80 (triggered), flow = volatility = forced-selling = 0
(untriggered), the aggregator computes rawStress = 28.0, activeSignals = 1,
shockMultiplier = 1.08, target = 30.24, alpha = 0.35, smoothed = 10.584,
finalScore = 11, and level STABLE. -/
theorem scenarioB_aggregation :
    (calculateStressWithTrace sigsScenarioB 0 0 0 0).2.1.raw_score = 28 ∧
    (calculateStressWithTrace sigsScenarioB 0 0 0 0).2.1.signals_aligned = 1 ∧
    (calculateStressWithTrace sigsScenarioB 0 0 0 0).2.1.shock_multiplier = 108/100 ∧
    (calculateStressWithTrace sigsScenarioB 0 0 0 0).2.1.pre_smooth_score = 3024/100 ∧
    (calculateStressWithTrace sigsScenarioB 0 0 0 0).2.1.smoothing_alpha = 35/100 ∧
    (calculateStressWithTrace sigsScenarioB 0 0 0 0).2.2 = 10584/1000 ∧
    (calculateStressWithTrace sigsScenarioB 0 0 0 0).1.score = 11 ∧
    (calculateStressWithTrace sigsScenarioB 0 0 0 0).2.1.final_score = 11 ∧
    (calculateStressWithTrace sigsScenarioB 0 0 0 0).1.level = .STABLE := by
  refine ⟨?_, ?_, ?_, ?_, ?_, ?_, ?_, ?_, ?_⟩ <;>
    norm_num [calculateStressWithTrace, sigsScenarioB, mkSig, Signals.values,
      weights, round_eq, classifyLevel]

/-- C2: a CriticalEvent is emitted iff the severity rank strictly increased to
at least STRESSED (rank 2), or the aligned-signal count increased with score
above 60; the stored previous level and count are updated to the current
values on every tick.  In particular, STABLE(10) → STRESSED(65, 2 aligned)
fires exactly one event and a following STRESSED(66, 2 aligned) fires none. -/
theorem criticalEvent_condition_and_scenario :
    (∀ pl pa tick stress causal rand,
      (((detectCriticalEvent pl pa tick stress causal rand).1.isSome = true) ↔
        ((getStressRank pl < getStressRank stress.level ∧
          2 ≤ getStressRank stress.level) ∨
         (pa < stress.signals_aligned ∧ 60 < stress.score))) ∧
      (detectCriticalEvent pl pa tick stress causal rand).2.1 = stress.level ∧
      (detectCriticalEvent pl pa tick stress causal rand).2.2 = stress.signals_aligned) ∧
    ((detectCriticalEvent .STABLE 0 tick0 (stressAt .STABLE 10 0) emptyCausal 0).1
       = none ∧
     (let d1 := detectCriticalEvent .STABLE 0 tick0 (stressAt .STABLE 10 0) emptyCausal 0
      let d2 := detectCriticalEvent d1.2.1 d1.2.2 tick0 (stressAt .STRESSED 65 2) emptyCausal 0
      let d3 := detectCriticalEvent d2.2.1 d2.2.2 tick0 (stressAt .STRESSED 66 2) emptyCausal 0
      d2.1.isSome = true ∧ d3.1 = none)) := by
  refine ⟨fun pl pa tick stress causal rand => ⟨?_, ?_, ?_⟩, ?_, ?_, ?_⟩
  · simp only [detectCriticalEvent]
    split <;> rename_i h <;>
      simp only [Bool.or_eq_true, Bool.and_eq_true, decide_eq_true_eq] at h <;>
      simp [h]
  · simp only [detectCriticalEvent]
    split <;> rfl
  · simp only [detectCriticalEvent]
    split <;> rfl
  · simp [detectCriticalEvent, stressAt, getStressRank]
  · simp [detectCriticalEvent, stressAt, getStressRank]
  · simp [detectCriticalEvent, stressAt, getStressRank]

/-- C4 (counterexample): the aggregation step is NOT a function of the four
signal records and the previous score alone — with identical signals and
previous score, a different clock reading (the `Date.now()` the method stores
into the trace and score `timestamp` fields) or a different liquidity-window
fill count (stored into the `confidence_reasons` strings) yields different
DecisionTrace/StressScore records. -/
theorem aggregate_not_pure_counterexample :
    (calculateStressWithTrace sigsScenarioB 0 5 5 0).2.1 ≠
      (calculateStressWithTrace sigsScenarioB 0 5 5 1).2.1 ∧
    (calculateStressWithTrace sigsScenarioB 0 5 5 0).1 ≠
      (calculateStressWithTrace sigsScenarioB 0 5 5 1).1 ∧
    (calculateStressWithTrace sigsScenarioB 0 5 5 0).2.1 ≠
      (calculateStressWithTrace sigsScenarioB 0 6 5 0).2.1 := by
  refine ⟨fun h => ?_, fun h => ?_, fun h => ?_⟩
  · have h2 := congrArg DecisionTrace.timestamp h
    simp [calculateStressWithTrace] at h2
  · have h2 := congrArg StressScore.timestamp h
    simp [calculateStressWithTrace] at h2
  · have h2 := congrArg DecisionTrace.confidence_reasons h
    simp only [calculateStressWithTrace] at h2
    exact absurd h2 (by decide)

/-- C4 (amended): the aggregation step is deterministic as a function of the
signal records, the previous smoothed score, the two window fill counts and
the clock reading; with only the signals and the previous score held fixed,
every StressScore field except `timestamp` and every DecisionTrace field
except `confidence_reasons` and `timestamp` (as well as the stored-back
smoothed score) are already determined. -/
theorem aggregate_determinism_amended :
    ∀ (signals : Signals) (p : ℚ) (ls ps : ℕ) (n : ℤ) (ls2 ps2 : ℕ) (n2 : ℤ),
      (calculateStressWithTrace signals p ls ps n).1.score =
        (calculateStressWithTrace signals p ls2 ps2 n2).1.score ∧
      (calculateStressWithTrace signals p ls ps n).1.raw_score =
        (calculateStressWithTrace signals p ls2 ps2 n2).1.raw_score ∧
      (calculateStressWithTrace signals p ls ps n).1.level =
        (calculateStressWithTrace signals p ls2 ps2 n2).1.level ∧
      (calculateStressWithTrace signals p ls ps n).1.color =
        (calculateStressWithTrace signals p ls2 ps2 n2).1.color ∧
      (calculateStressWithTrace signals p ls ps n).1.signals_aligned =
        (calculateStressWithTrace signals p ls2 ps2 n2).1.signals_aligned ∧
      (calculateStressWithTrace signals p ls ps n).1.confidence =
        (calculateStressWithTrace signals p ls2 ps2 n2).1.confidence ∧
      (calculateStressWithTrace signals p ls ps n).1.breakdown =
        (calculateStressWithTrace signals p ls2 ps2 n2).1.breakdown ∧
      (calculateStressWithTrace signals p ls ps n).2.1.weight_contributions =
        (calculateStressWithTrace signals p ls2 ps2 n2).2.1.weight_contributions ∧
      (calculateStressWithTrace signals p ls ps n).2.1.raw_score =
        (calculateStressWithTrace signals p ls2 ps2 n2).2.1.raw_score ∧
      (calculateStressWithTrace signals p ls ps n).2.1.signals_aligned =
        (calculateStressWithTrace signals p ls2 ps2 n2).2.1.signals_aligned ∧
      (calculateStressWithTrace signals p ls ps n).2.1.shock_multiplier =
        (calculateStressWithTrace signals p ls2 ps2 n2).2.1.shock_multiplier ∧
      (calculateStressWithTrace signals p ls ps n).2.1.pre_smooth_score =
        (calculateStressWithTrace signals p ls2 ps2 n2).2.1.pre_smooth_score ∧
      (calculateStressWithTrace signals p ls ps n).2.1.smoothing_alpha =
        (calculateStressWithTrace signals p ls2 ps2 n2).2.1.smoothing_alpha ∧
      (calculateStressWithTrace signals p ls ps n).2.1.previous_score =
        (calculateStressWithTrace signals p ls2 ps2 n2).2.1.previous_score ∧
      (calculateStressWithTrace signals p ls ps n).2.1.final_score =
        (calculateStressWithTrace signals p ls2 ps2 n2).2.1.final_score ∧
      (calculateStressWithTrace signals p ls ps n).2.1.audit_narrative =
        (calculateStressWithTrace signals p ls2 ps2 n2).2.1.audit_narrative ∧
      (calculateStressWithTrace signals p ls ps n).2.2 =
        (calculateStressWithTrace signals p ls2 ps2 n2).2.2 := by
  intro signals p ls ps n ls2 ps2 n2
  exact ⟨rfl, rfl, rfl, rfl, rfl, rfl, rfl, rfl, rfl, rfl, rfl, rfl, rfl, rfl,
    rfl, rfl, rfl⟩

/-- C9: for any signal inputs (with the evaluator-stamped name fields), every
DecisionTrace weight contribution equals the signal's value times its fixed
weight, its `pct_of_total` is `contribution/rawStress×100` when `rawStress >
0` and 0 otherwise, and the four contributions sum exactly to the trace's
`raw_score`. -/
theorem trace_sum_identity :
    ∀ (s : Signals) (p : ℚ) (ls ps : ℕ) (n : ℤ),
      canonicalNames s →
      (∀ wc ∈ (calculateStressWithTrace s p ls ps n).2.1.weight_contributions,
        wc.weight = weights wc.signal ∧
        wc.raw_value = (s.get wc.signal).value ∧
        wc.contribution = wc.raw_value * wc.weight ∧
        wc.pct_of_total =
          if (calculateStressWithTrace s p ls ps n).2.1.raw_score > 0 then
            wc.contribution / (calculateStressWithTrace s p ls ps n).2.1.raw_score * 100
          else 0) ∧
      ((calculateStressWithTrace s p ls ps n).2.1.weight_contributions.map
        WeightContribution.contribution).sum
        = (calculateStressWithTrace s p ls ps n).2.1.raw_score := by
  rintro s p ls ps n ⟨h1, h2, h3, h4⟩
  constructor
  · intro wc hwc
    simp only [calculateStressWithTrace, Signals.values, List.map_cons, List.map_nil,
      List.mem_cons, List.not_mem_nil, or_false] at hwc
    rcases hwc with h | h | h | h <;> subst h <;>
      simp [h1, h2, h3, h4, Signals.get, calculateStressWithTrace, Signals.values]
  · simp only [calculateStressWithTrace, Signals.values, List.map_cons, List.map_nil,
      List.sum_cons, List.sum_nil, h1, h2, h3, h4]
    ring

/-- C9 (witness): the identity instantiated at the Scenario-B signal inputs. -/
theorem trace_sum_identity_witness :
    canonicalNames sigsScenarioB ∧
    ((calculateStressWithTrace sigsScenarioB 0 0 0 0).2.1.weight_contributions.map
      WeightContribution.contribution).sum
      = (calculateStressWithTrace sigsScenarioB 0 0 0 0).2.1.raw_score :=
  ⟨⟨rfl, rfl, rfl, rfl⟩,
   (trace_sum_identity sigsScenarioB 0 0 0 0 ⟨rfl, rfl, rfl, rfl⟩).2⟩

/-- Entries already in the history survive an `appendTrigger` step. -/
theorem appendTrigger_mono (now : ℤ) (ord : List TriggerEntry) (s : SignalOutput)
    (t : TriggerEntry) (h : t ∈ ord) : t ∈ appendTrigger now ord s := by
  unfold appendTrigger
  split
  · exact h
  · exact List.mem_append_left _ h

/-- Entries already in the history survive the whole recording fold. -/
theorem foldl_appendTrigger_mono (now : ℤ) (L : List SignalOutput) :
    ∀ ord t, t ∈ ord → t ∈ L.foldl (appendTrigger now) ord := by
  induction L with
  | nil => intro ord t h; exact h
  | cons s L ih => intro ord t h; exact ih _ _ (appendTrigger_mono now ord s t h)

/-- A signal named in the processed outputs but absent from the history gets an
entry stamped with the current clock reading. -/
theorem foldl_appendTrigger_mem (now : ℤ) (L : List SignalOutput) :
    ∀ ord σ, (∀ t ∈ ord, t.signal ≠ σ) → (∃ s ∈ L, s.name = σ) →
      ∃ v, ({ signal := σ, timestamp := now, initialValue := v } : TriggerEntry)
        ∈ L.foldl (appendTrigger now) ord := by
  induction L with
  | nil =>
    rintro ord σ _ ⟨s, hs, _⟩
    exact absurd hs (List.not_mem_nil s)
  | cons s L ih =>
    rintro ord σ hord hex
    by_cases hname : s.name = σ
    · have hstep : appendTrigger now ord s
          = ord ++ [{ signal := s.name, timestamp := now, initialValue := s.value }] := by
        unfold appendTrigger
        have hany : (ord.any fun t => decide (t.signal = s.name)) = false := by
          simp only [List.any_eq_false, decide_eq_true_eq]
          intro t ht
          rw [hname]
          exact hord t ht
        rw [hany]
        simp
      refine ⟨s.value, ?_⟩
      rw [List.foldl_cons, hstep, hname]
      exact foldl_appendTrigger_mono now L _ _ (by simp)
    · rcases hex with ⟨s0, hs0mem, hs0⟩
      have hs0L : s0 ∈ L := by
        rcases List.mem_cons.mp hs0mem with rfl | h
        · exact absurd hs0 hname
        · exact h
      rw [List.foldl_cons]
      refine ih (appendTrigger now ord s) σ ?_ ⟨s0, hs0L, hs0⟩
      intro t ht
      unfold appendTrigger at ht
      split at ht
      · exact hord t ht
      · rcases List.mem_append.mp ht with h | h
        · exact hord t h
        · simp only [List.mem_singleton] at h
          subst h
          simpa using hname

/-- C6: on a tick with zero triggered signals the tracker discards its history
entirely and reports an inactive chain with no steps and no catalyst; and a
signal with no surviving history entry that triggers is recorded with the
current tick's clock reading as its first-trigger timestamp (so a signal
re-triggering after a clearing tick gets a fresh timestamp, never the
discarded one). -/
theorem causalChain_clearing :
    ∀ (trig : List TriggerEntry) (stress : StressScore) (signals : Signals) (now : ℤ),
      ((∀ s ∈ signals.values, s.triggered = false) →
        buildCausalSequence trig stress signals now =
          ({ active := false, steps := [], catalyst_id := none, narrative := "",
             risk_assessment := "" }, [])) ∧
      (canonicalNames signals →
        ∀ σ : SignalType, (signals.get σ).triggered = true →
          (∀ t ∈ trig, t.signal ≠ σ) →
          ∃ v, ({ signal := σ, timestamp := now, initialValue := v } : TriggerEntry)
            ∈ (buildCausalSequence trig stress signals now).2) := by
  intro trig stress signals now
  constructor
  · intro hoff
    have h1 := hoff signals.liquidity (by simp [Signals.values])
    have h2 := hoff signals.flow (by simp [Signals.values])
    have h3 := hoff signals.volatility (by simp [Signals.values])
    have h4 := hoff signals.forcedSelling (by simp [Signals.values])
    simp [buildCausalSequence, Signals.values, h1, h2, h3, h4]
  · rintro ⟨hc1, hc2, hc3, hc4⟩ σ hσ htrig
    have hmem : signals.get σ ∈ signals.values.filter fun s => s.triggered := by
      refine List.mem_filter.mpr ⟨?_, by simp [hσ]⟩
      cases σ <;> simp [Signals.values, Signals.get]
    have hname : (signals.get σ).name = σ := by
      cases σ
      · exact hc1
      · exact hc2
      · exact hc3
      · exact hc4
    obtain ⟨v, hv⟩ := foldl_appendTrigger_mem now
      (signals.values.filter fun s => s.triggered) trig σ htrig
      ⟨signals.get σ, hmem, hname⟩
    refine ⟨v, ?_⟩
    have hne : ¬((signals.values.filter fun s => s.triggered).length = 0) := by
      intro h0
      rw [List.length_eq_zero] at h0
      rw [h0] at hmem
      exact absurd hmem (List.not_mem_nil _)
    simp only [buildCausalSequence, if_neg hne]
    exact List.mem_filter.mpr ⟨hv, by simp [hσ]⟩

/-- C6 (witness): a previously-active chain clears on an all-untriggered tick,
and a liquidity signal triggering with empty history is recorded at the
current clock reading 7. -/
theorem causalChain_clearing_witness :
    ((∀ s ∈ sigsScenarioA.values, s.triggered = false) ∧
      buildCausalSequence [{ signal := .FLOW, timestamp := -5, initialValue := 10 }]
        (stressAt .STABLE 0 0) sigsScenarioA 7
        = ({ active := false, steps := [], catalyst_id := none, narrative := "",
             risk_assessment := "" }, [])) ∧
    (canonicalNames sigsScenarioB ∧
      ∃ v, ({ signal := .LIQUIDITY, timestamp := 7, initialValue := v } : TriggerEntry)
        ∈ (buildCausalSequence [] (stressAt .STABLE 11 1) sigsScenarioB 7).2) := by
  constructor
  · refine ⟨by decide, ?_⟩
    exact (causalChain_clearing
      [{ signal := .FLOW, timestamp := -5, initialValue := 10 }]
      (stressAt .STABLE 0 0) sigsScenarioA 7).1 (by decide)
  · refine ⟨⟨rfl, rfl, rfl, rfl⟩, ?_⟩
    exact (causalChain_clearing [] (stressAt .STABLE 11 1) sigsScenarioB 7).2
      ⟨rfl, rfl, rfl, rfl⟩ .LIQUIDITY rfl (by simp)

/-- C10: on the first tick after construction or reset the liquidity signal is
neutral — construction and `reset` leave the liquidity window empty, and
`processLiquidity` run on an empty window reports risk value 0 and is
untriggered for every tick, because the depth is pushed before the baseline
mean is taken (and a zero depth hits the zero-baseline guard). -/
theorem first_tick_liquidity_neutral :
    (∀ e : AnalyticsEngine, (e.reset).liquidityBuffer.buffer = [] ∧
      (e.reset).liquidityBuffer.head = 0) ∧
    AnalyticsEngine.init.liquidityBuffer.buffer = [] ∧
    ∀ (ms : ℕ) (tick : NormalizedMarketTick),
      (processLiquidity { buffer := [], maxSize := ms, head := 0 } tick).1.value = 0 ∧
      (processLiquidity { buffer := [], maxSize := ms, head := 0 } tick).1.triggered
        = false := by
  refine ⟨fun e => ⟨rfl, rfl⟩, rfl, fun ms tick => ?_⟩
  by_cases hms : 0 < ms
  · by_cases hd : tick.total_depth = 0 <;>
      simp [processLiquidity, CircularBuffer.push, CircularBuffer.mean,
        CircularBuffer.size, hms, hd]
  · simp [processLiquidity, CircularBuffer.push, CircularBuffer.mean,
      CircularBuffer.size, hms]

/-- If `x % N = j > 0` then `(x-1) % N = j - 1`. -/
theorem mod_pred {x N j : ℕ} (hj : x % N = j) (hj0 : 0 < j) :
    (x - 1) % N = j - 1 := by
  rcases Nat.eq_zero_or_pos N with h0 | hN
  · subst h0
    simp only [Nat.mod_zero] at hj ⊢
    omega
  · have hjN : j < N := hj ▸ Nat.mod_lt _ hN
    have hdm := Nat.div_add_mod x N
    rw [hj] at hdm
    have hx1 : x - 1 = N * (x / N) + (j - 1) := by omega
    rw [hx1, Nat.mul_add_mod]
    exact Nat.mod_eq_of_lt (by omega)

/-- Reading slot `(h+i) % N` undoes the rotation by `h`. -/
theorem mod_roundtrip {N h i : ℕ} (hh : h < N) (hi : i < N) :
    ((h + i) % N + N - h) % N = i := by
  have h1 : (h + i) % N + N - h = (h + i) % N + (N - h) := by omega
  rw [h1, Nat.mod_add_mod, show h + i + (N - h) = N + i by omega,
    Nat.add_mod_left]
  exact Nat.mod_eq_of_lt hi

/-- One `push` preserves the ring-buffer representation invariant. -/
theorem bufInv_push {α : Type} {N : ℕ} (hN : 0 < N) {xs : List α} {s : CircularBuffer α}
    (h : BufInv N xs s) (x : α) : BufInv N (xs ++ [x]) (s.push x) := by
  obtain ⟨hmax, hlen, hhead, helt⟩ := h
  by_cases hfull : s.buffer.length < s.maxSize
  · -- append path: xs.length < N
    have hxs : xs.length < N := by
      rw [hmax] at hfull
      omega
    have hlen2 : s.buffer.length = xs.length := by omega
    have hhead0 : s.head = 0 := by
      rw [hhead, show xs.length - N = 0 by omega]
      simp
    refine ⟨?_, ?_, ?_, ?_⟩
    · simp only [CircularBuffer.push]
      rw [if_pos hfull]
      exact hmax
    · simp only [CircularBuffer.push]
      rw [if_pos hfull]
      simp only [List.length_append, List.length_singleton]
      omega
    · simp only [CircularBuffer.push]
      rw [if_pos hfull]
      simp only [List.length_append, List.length_singleton]
      rw [show xs.length + 1 - N = 0 by omega]
      simpa using hhead0
    · intro i hi
      simp only [CircularBuffer.push] at hi ⊢
      rw [if_pos hfull] at hi ⊢
      simp only [List.length_append, List.length_singleton] at hi ⊢
      have hiN : i < N := by omega
      rw [hhead0, show xs.length + 1 - N = 0 by omega, Nat.sub_zero,
        Nat.add_mod_right, Nat.mod_eq_of_lt hiN, Nat.zero_add]
      by_cases hilt : i < xs.length
      · rw [List.getElem?_append_left (show i < s.buffer.length by omega),
          List.getElem?_append_left hilt]
        have := helt i (by omega)
        rw [this, show xs.length - N = 0 by omega, Nat.zero_add, hhead0,
          Nat.sub_zero, Nat.add_mod_right, Nat.mod_eq_of_lt hiN]
      · have hieq : i = xs.length := by omega
        subst hieq
        have h1 : (s.buffer ++ [x])[xs.length]? = some x := by
          rw [← hlen2]
          exact List.getElem?_concat_length s.buffer x
        rw [h1, List.getElem?_concat_length]
  · -- overwrite path: xs.length ≥ N, buffer length = N
    have hxsge : N ≤ xs.length := by
      rcases Nat.lt_or_ge xs.length N with hlt | hge
      · exact absurd (by rw [hmax, hlen]; omega) hfull
      · exact hge
    have hlenN : s.buffer.length = N := by omega
    have hhlt : s.head < N := by
      rw [hhead]
      exact Nat.mod_lt _ hN
    refine ⟨?_, ?_, ?_, ?_⟩
    · simp only [CircularBuffer.push]
      rw [if_neg hfull]
      exact hmax
    · simp only [CircularBuffer.push]
      rw [if_neg hfull]
      simp only [List.length_set, List.length_append, List.length_singleton]
      omega
    · simp only [CircularBuffer.push]
      rw [if_neg hfull]
      simp only [List.length_append, List.length_singleton]
      rw [hmax, hhead, Nat.mod_add_mod]
      congr 1
      omega
    · intro i hi
      simp only [CircularBuffer.push] at hi ⊢
      rw [if_neg hfull] at hi ⊢
      simp only [List.length_set] at hi
      simp only [List.length_append, List.length_singleton]
      have hiN : i < N := by omega
      rw [hmax, show xs.length + 1 - N = xs.length - N + 1 by omega]
      by_cases hieq : i = s.head
      · subst hieq
        rw [List.getElem?_set_eq_of_lt x (by omega)]
        have hidx : (s.head + N - (s.head + 1) % N) % N = N - 1 := by
          by_cases hcase : s.head + 1 < N
          · rw [Nat.mod_eq_of_lt hcase,
              show s.head + N - (s.head + 1) = N - 1 by omega]
            exact Nat.mod_eq_of_lt (by omega)
          · rw [show s.head + 1 = N by omega, Nat.mod_self, Nat.sub_zero,
              Nat.add_mod_right, Nat.mod_eq_of_lt (show s.head < N by omega)]
            omega
        rw [hidx, show xs.length - N + 1 + (N - 1) = xs.length by omega,
          List.getElem?_concat_length]
      · rw [List.getElem?_set_ne (fun he => hieq he.symm),
          helt i (by omega)]
        set j := (i + N - s.head) % N with hj
        have hjlt : j < N := Nat.mod_lt _ hN
        have hj0 : 0 < j := by
          rw [hj]
          by_cases hxN : i + N - s.head < N
          · rw [Nat.mod_eq_of_lt hxN]
            omega
          · rw [Nat.mod_eq_sub_mod (by omega),
              Nat.mod_eq_of_lt (by omega)]
            omega
        have hnewidx : (i + N - (s.head + 1) % N) % N = j - 1 := by
          by_cases hcase : s.head + 1 < N
          · rw [Nat.mod_eq_of_lt hcase,
              show i + N - (s.head + 1) = i + N - s.head - 1 by omega]
            exact mod_pred hj.symm hj0
          · have hh0N : s.head = N - 1 := by omega
            rw [show s.head + 1 = N by omega, Nat.mod_self, Nat.sub_zero,
              Nat.add_mod_right, Nat.mod_eq_of_lt hiN]
            have hjval : j = i + 1 := by
              rw [hj, hh0N, show i + N - (N - 1) = i + 1 by omega]
              exact Nat.mod_eq_of_lt (by omega)
            omega
        rw [hnewidx, show xs.length - N + 1 + (j - 1) = xs.length - N + j by omega,
          List.getElem?_append_left (show xs.length - N + j < xs.length by omega)]

/-- The representation invariant holds after pushing any list into a fresh
buffer of positive capacity. -/
theorem bufInv_pushAll {α : Type} {N : ℕ} (hN : 0 < N) (xs : List α) :
    BufInv N xs (pushAll N xs) := by
  induction xs using List.reverseRecOn with
  | nil =>
    refine ⟨rfl, by simp [pushAll, CircularBuffer.mkEmpty],
      by simp [pushAll, CircularBuffer.mkEmpty], ?_⟩
    intro i hi
    simp [pushAll, CircularBuffer.mkEmpty] at hi
  | append_singleton ys y ih =>
    have hstep : pushAll N (ys ++ [y]) = (pushAll N ys).push y := by
      simp [pushAll, List.foldl_append]
    rw [hstep]
    exact bufInv_push hN ih y

/-- `getAll` read at chronological position `i` is the backing-array slot
`(head + i) % size`. -/
theorem getAll_getElem? {α : Type} (s : CircularBuffer α) (i : ℕ) (h : i < s.buffer.length) :
    (s.getAll)[i]? = s.buffer[(s.head + i) % s.buffer.length]? := by
  rw [CircularBuffer.getAll, ← List.get?_eq_getElem?, List.get?_ofFn,
    List.ofFnNthVal, dif_pos h,
    List.getElem?_eq_getElem (Nat.mod_lt _ (by omega))]
  rfl

/-- C5: RollingWindow FIFO — for every capacity `N > 0` and every push
sequence `xs`, `size() ≤ N`; after at least `N` pushes `size() = N`; and
`getAll()` returns exactly the last `N` pushed items in chronological order
(the oldest items are evicted first). -/
theorem rollingWindow_fifo {α : Type} (N : ℕ) (hN : 0 < N) (xs : List α) :
    (pushAll N xs).size ≤ N ∧
    (N ≤ xs.length → (pushAll N xs).size = N) ∧
    (pushAll N xs).getAll = xs.drop (xs.length - N) := by
  obtain ⟨hmax, hlen, hhead, helt⟩ := bufInv_pushAll hN xs
  refine ⟨by rw [CircularBuffer.size, hlen]; omega,
    fun h => by rw [CircularBuffer.size, hlen]; omega, ?_⟩
  apply List.ext_getElem?
  intro i
  by_cases hi : i < (pushAll N xs).buffer.length
  · rw [getAll_getElem? _ i hi]
    rcases Nat.lt_or_ge xs.length N with hm | hm
    · have hlen' : (pushAll N xs).buffer.length = xs.length := by omega
      have hh0 : (pushAll N xs).head = 0 := by
        rw [hhead, show xs.length - N = 0 by omega]
        simp
      have h1 := helt i hi
      rw [hh0, Nat.sub_zero, Nat.add_mod_right,
        Nat.mod_eq_of_lt (show i < N by omega),
        show xs.length - N = 0 by omega, Nat.zero_add] at h1
      rw [hh0, Nat.zero_add, hlen', Nat.mod_eq_of_lt (show i < xs.length by omega),
        h1, show xs.length - N = 0 by omega, List.drop_zero]
    · have hlenN : (pushAll N xs).buffer.length = N := by omega
      have hhlt : (pushAll N xs).head < N := by
        rw [hhead]
        exact Nat.mod_lt _ hN
      have hiN : i < N := by omega
      have hbound : ((pushAll N xs).head + i) % N < (pushAll N xs).buffer.length := by
        rw [hlenN]
        exact Nat.mod_lt _ hN
      have h1 := helt (((pushAll N xs).head + i) % N) hbound
      rw [mod_roundtrip hhlt hiN] at h1
      rw [hlenN, h1, List.getElem?_drop]
  · have h1 : (pushAll N xs).getAll.length ≤ i := by
      simp only [CircularBuffer.getAll, List.length_ofFn]
      omega
    rw [List.getElem?_eq_none h1, List.getElem?_eq_none (by
      rw [List.length_drop]
      omega)]

/-- C5 (witness): capacity 3, five pushes — the two oldest items evicted. -/
theorem rollingWindow_fifo_witness :
    0 < 3 ∧ (pushAll 3 [1, 2, 3, 4, 5]).size ≤ 3 ∧
    ((3 : ℕ) ≤ ([1, 2, 3, 4, 5] : List ℕ).length →
      (pushAll 3 [1, 2, 3, 4, 5]).size = 3) ∧
    (pushAll 3 [1, 2, 3, 4, 5]).getAll = [3, 4, 5] := by
  have h := rollingWindow_fifo 3 (by decide) ([1, 2, 3, 4, 5] : List ℕ)
  exact ⟨by decide, h.1, h.2.1, h.2.2⟩


/-- When the write cursor is at 0 the chronological view is the backing
array itself. -/
theorem getAll_head_zero {α : Type} (s : CircularBuffer α) (h : s.head = 0) :
    s.getAll = s.buffer := by
  apply List.ext_getElem?
  intro i
  by_cases hi : i < s.buffer.length
  · rw [getAll_getElem? s i hi, h, Nat.zero_add, Nat.mod_eq_of_lt hi]
  · rw [List.getElem?_eq_none
      (by simp only [CircularBuffer.getAll, List.length_ofFn]; omega),
      List.getElem?_eq_none (by omega)]

/-- Standard deviation of the last ten prices of the counterexample window. -/
theorem vol19_short_std :
    getStd (((vol19 ++ [2]).drop ((vol19 ++ [2]).length - 10)).map
      fun q : ℚ => (q : ℝ)) = 1 := by
  have h1 : ((vol19 ++ [2]).drop ((vol19 ++ [2]).length - 10))
      = ([0, 0, 0, 0, 0, 2, 2, 2, 2, 2] : List ℚ) := rfl
  rw [h1]
  simp only [getStd, List.map_cons, List.map_nil, List.sum_cons, List.sum_nil,
    List.length_cons, List.length_nil]
  norm_num

/-- Standard deviation of the whole counterexample window. -/
theorem vol19_long_std :
    getStd ((vol19 ++ [2]).map fun q : ℚ => (q : ℝ)) = 3/4 := by
  have h1 : (vol19 ++ [2] : List ℚ)
      = [3/2, 3/2, 3/2, 3/2, 3/2, 3/2, 3/2, 3/2, 3/2, 3/2,
         0, 0, 0, 0, 0, 2, 2, 2, 2, 2] := rfl
  rw [h1]
  simp only [getStd, List.map_cons, List.map_nil, List.sum_cons, List.sum_nil,
    List.length_cons, List.length_nil]
  norm_num
  rw [show (9:ℝ) = 3^2 by norm_num, show (16:ℝ) = 4^2 by norm_num,
    Real.sqrt_sq (by norm_num), Real.sqrt_sq (by norm_num)]

/-- C3 (counterexample): on the 20-sample window `vol19 ++ [2]` the code's
volatility value is 17 (the `|| 1` guard leaves the long stddev 3/4 in place),
while the claimed `max(stddev, 1)` formula gives risk 0 — so the claimed
formula does not describe the code. -/
theorem volatility_formula_counterexample :
    (processVolatility ⟨vol19, 300, 0⟩ tickP2).1.value = 17 ∧
    round (claimedVolatilityRisk (vol19 ++ [2])) = 0 ∧
    (processVolatility ⟨vol19, 300, 0⟩ tickP2).1.value ≠
      round (claimedVolatilityRisk (vol19 ++ [2])) := by
  have hprice : tickP2.price = 2 := rfl
  have hpush : (CircularBuffer.push ⟨vol19, 300, 0⟩ (2 : ℚ))
      = (⟨vol19 ++ [2], 300, 0⟩ : CircularBuffer ℚ) := by
    rw [CircularBuffer.push]
    rw [if_pos (by decide)]
  have hget : ((⟨vol19 ++ [2], 300, 0⟩ : CircularBuffer ℚ)).getAll = vol19 ++ [2] :=
    getAll_head_zero _ rfl
  have hval : (processVolatility ⟨vol19, 300, 0⟩ tickP2).1.value = 17 := by
    simp only [processVolatility, hprice, hpush, hget]
    rw [if_neg (by decide)]
    simp only [vol19_short_std, vol19_long_std]
    rw [if_neg (by norm_num : ¬((3:ℝ)/4 = 0))]
    rw [show min (100:ℝ) (max 0 ((1 / (3/4) - 1) * 50)) = 50/3 by norm_num]
    rw [round_eq]
    rw [show (50:ℝ)/3 + 1/2 = 103/6 by norm_num]
    rw [Int.floor_eq_iff]
    constructor <;> norm_num
  have hclaimed : round (claimedVolatilityRisk (vol19 ++ [2])) = 0 := by
    have hshort2 : getStd ((((vol19 ++ [2]).map fun q : ℚ => (q : ℝ))).drop
        ((((vol19 ++ [2]).map fun q : ℚ => (q : ℝ))).length - 10)) = 1 := by
      rw [List.length_map, ← List.map_drop]
      exact vol19_short_std
    simp only [claimedVolatilityRisk, hshort2, vol19_long_std]
    rw [show max ((3:ℝ)/4) 1 = 1 from max_eq_right (by norm_num)]
    rw [show min (100:ℝ) (max 0 ((1 / 1 - 1) * 50)) = 0 by norm_num]
    exact round_zero
  exact ⟨hval, hclaimed, by rw [hval, hclaimed]; decide⟩

/-- `lastN` agrees with the drop-based slice. -/
theorem lastN_eq_drop {β : Type} (n : ℕ) (l : List β) :
    lastN n l = l.drop (l.length - n) := by
  rw [lastN, List.take_reverse, List.reverse_reverse]

/-- Expansion of the summed squared deviations. -/
theorem sum_sq_dev (l : List ℝ) (m : ℝ) :
    (l.map fun b => (b - m) ^ 2).sum
      = (l.map fun x => x ^ 2).sum - 2 * m * l.sum + l.length * m ^ 2 := by
  induction l with
  | nil => simp
  | cons a l ih =>
    simp only [List.map_cons, List.sum_cons, List.length_cons, ih]
    push_cast
    ring

/-- On any nonempty list the two population-stddev formulations agree. -/
theorem getStd_eq_stddevPop (l : List ℝ) (h : l ≠ []) :
    getStd l = stddevPop l := by
  have hn : (l.length : ℝ) ≠ 0 :=
    Nat.cast_ne_zero.mpr (by simpa [List.length_eq_zero] using h)
  simp only [getStd, stddevPop]
  congr 1
  rw [sum_sq_dev]
  field_simp
  ring

/-- C3 (amended): after the price is pushed, a window of fewer than 20 samples
yields the default signal; otherwise the value is the rounded risk
`clamp((short/long' − 1)×50, 0, 100)` where `long'` is the whole-window
population stddev replaced by 1 only when it equals 0 (the `|| 1` guard, not
`max(stddev, 1)`), and the signal is triggered exactly when that risk
exceeds 55. -/
theorem volatility_amended :
    ∀ (buf : CircularBuffer ℚ) (tick : NormalizedMarketTick),
      ((buf.push tick.price).getAll.length < 20 →
        (processVolatility buf tick).1
          = defaultSignal .VOLATILITY tick.processing_timestamp) ∧
      (20 ≤ (buf.push tick.price).getAll.length →
        (processVolatility buf tick).1.value
          = round (amendedVolatilityRisk (buf.push tick.price).getAll) ∧
        ((processVolatility buf tick).1.triggered = true ↔
          55 < amendedVolatilityRisk (buf.push tick.price).getAll)) := by
  intro buf tick
  constructor
  · intro hlt
    simp only [processVolatility]
    rw [if_pos hlt]
  · intro hge
    have hlen10 : ((buf.push tick.price).getAll.drop
        ((buf.push tick.price).getAll.length - 10)).length = 10 := by
      rw [List.length_drop]
      omega
    have hshort : stddevPop (lastN 10 ((buf.push tick.price).getAll.map fun q : ℚ => (q : ℝ)))
        = getStd (((buf.push tick.price).getAll.drop
            ((buf.push tick.price).getAll.length - 10)).map fun q : ℚ => (q : ℝ)) := by
      rw [lastN_eq_drop, List.length_map, ← List.map_drop,
        ← getStd_eq_stddevPop _ (by
          intro h0
          have := congrArg List.length h0
          rw [List.length_map, hlen10] at this
          simp only [List.length_nil] at this
          exact absurd this (by norm_num))]
    have hlong : stddevPop ((buf.push tick.price).getAll.map fun q : ℚ => (q : ℝ))
        = getStd ((buf.push tick.price).getAll.map fun q : ℚ => (q : ℝ)) := by
      rw [← getStd_eq_stddevPop _ (by
        intro h0
        have h1 := congrArg List.length h0
        rw [List.length_map] at h1
        simp only [List.length_nil] at h1
        omega)]
    have hrisk : amendedVolatilityRisk (buf.push tick.price).getAll
        = min 100 (max 0
            ((getStd (((buf.push tick.price).getAll.drop
                ((buf.push tick.price).getAll.length - 10)).map fun q : ℚ => (q : ℝ)) /
              (if getStd ((buf.push tick.price).getAll.map fun q : ℚ => (q : ℝ)) = 0 then 1
               else getStd ((buf.push tick.price).getAll.map fun q : ℚ => (q : ℝ))) - 1) * 50)) := by
      simp only [amendedVolatilityRisk, hshort, hlong]
    rw [hrisk]
    simp only [processVolatility]
    rw [if_neg (not_lt.mpr hge)]
    constructor
    · rfl
    · by_cases h55 : (55:ℝ) < min 100 (max 0
          ((getStd (((buf.push tick.price).getAll.drop
              ((buf.push tick.price).getAll.length - 10)).map fun q : ℚ => (q : ℝ)) /
            (if getStd ((buf.push tick.price).getAll.map fun q : ℚ => (q : ℝ)) = 0 then 1
             else getStd ((buf.push tick.price).getAll.map fun q : ℚ => (q : ℝ))) - 1) * 50))
      · simp only [if_pos h55]
        simpa using h55
      · simp only [if_neg h55]
        simpa using h55

/-- C3 (witness): a 1-sample window falls back to the default signal. -/
theorem volatility_amended_witness :
    ((CircularBuffer.mkEmpty ℚ 300).push tick0.price).getAll.length < 20 ∧
    (processVolatility (CircularBuffer.mkEmpty ℚ 300) tick0).1
      = defaultSignal .VOLATILITY tick0.processing_timestamp := by
  have hlen : ((CircularBuffer.mkEmpty ℚ 300).push tick0.price).getAll.length < 20 := by
    simp [CircularBuffer.getAll, CircularBuffer.push, CircularBuffer.mkEmpty]
  exact ⟨hlen, (volatility_amended (CircularBuffer.mkEmpty ℚ 300) tick0).1 hlen⟩

/-- Rounding preserves nonnegativity. -/
theorem round_nonneg {α : Type} [LinearOrderedField α] [FloorRing α]
    (x : α) (h : 0 ≤ x) : 0 ≤ round x := by
  rw [round_eq]
  exact Int.floor_nonneg.mpr (by linarith)

/-- Rounding preserves the upper bound 100. -/
theorem round_le_hundred (x : ℚ) (h : x ≤ 100) : round x ≤ 100 := by
  rw [round_eq]
  have : ⌊x + 1/2⌋ < 101 := Int.floor_lt.mpr (by push_cast; linarith)
  omega

/-- The liquidity signal value is never negative. -/
theorem processLiquidity_value_nonneg (buf : CircularBuffer ℚ)
    (tick : NormalizedMarketTick) : 0 ≤ (processLiquidity buf tick).1.value := by
  simp only [processLiquidity]
  apply round_nonneg
  split
  · norm_num
  · split
    · exact le_refl 0
    · rename_i hneg
      refine le_min (by norm_num) ?_
      have h1 : (0:ℚ) ≤ -((tick.total_depth - (buf.push tick.total_depth).mean) /
          (buf.push tick.total_depth).mean * 100) := by linarith
      have h2 := mul_nonneg (div_nonneg h1 (by norm_num : (0:ℚ) ≤ 40))
        (by norm_num : (0:ℚ) ≤ 100)
      linarith

/-- The flow signal value is never negative. -/
theorem processFlow_value_nonneg (tick : NormalizedMarketTick) :
    0 ≤ (processFlow tick).value := by
  simp only [processFlow]
  split
  · exact le_refl 0
  · exact round_nonneg _ (le_max_left 0 _)

/-- The forced-selling signal value is nonnegative on well-formed ticks. -/
theorem processForcedSelling_value_nonneg (tick : NormalizedMarketTick)
    (hwf : WfTick tick) : 0 ≤ (processForcedSelling tick).value := by
  simp only [processForcedSelling]
  apply round_nonneg
  refine le_min (by norm_num) ?_
  have hsum : 0 ≤ ((tick.trades.large_trades.filter fun t =>
      decide (t.side = Side.sell)).map Trade.quantity).sum := by
    apply List.sum_nonneg
    intro q hq
    obtain ⟨tr, htr, rfl⟩ := List.mem_map.mp hq
    exact hwf tr (List.mem_of_mem_filter htr)
  have := mul_nonneg (div_nonneg hsum (by norm_num : (0:ℚ) ≤ 5))
    (by norm_num : (0:ℚ) ≤ 100)
  linarith

/-- The volatility signal value is never negative. -/
theorem processVolatility_value_nonneg (buf : CircularBuffer ℚ)
    (tick : NormalizedMarketTick) : 0 ≤ (processVolatility buf tick).1.value := by
  simp only [processVolatility]
  split
  · exact le_refl 0
  · exact round_nonneg _ (le_min (by norm_num) (le_max_left 0 _))

/-- The asymmetric smoothing step maps `[0,100]` into `[0,100]`. -/
theorem smoothstep_bounds (raw mult p : ℚ) (hraw : 0 ≤ raw) (hmult : 0 ≤ mult)
    (hp0 : 0 ≤ p) (hp1 : p ≤ 100) :
    0 ≤ (if min 100 (raw * mult) > p then (35:ℚ)/100 else 15/100) * min 100 (raw * mult)
        + (1 - if min 100 (raw * mult) > p then (35:ℚ)/100 else 15/100) * p ∧
    (if min 100 (raw * mult) > p then (35:ℚ)/100 else 15/100) * min 100 (raw * mult)
        + (1 - if min 100 (raw * mult) > p then (35:ℚ)/100 else 15/100) * p ≤ 100 := by
  have ht0 : 0 ≤ min 100 (raw * mult) := le_min (by norm_num) (mul_nonneg hraw hmult)
  have ht1 : min 100 (raw * mult) ≤ 100 := min_le_left _ _
  split <;> constructor <;> nlinarith

/-- The stored-back smoothed stress stays in `[0,100]` whenever the previous
score is in range and the four signal values are nonnegative. -/
theorem calculate_smoothed_bounds (signals : Signals) (p : ℚ) (ls ps : ℕ) (n : ℤ)
    (hp0 : 0 ≤ p) (hp1 : p ≤ 100)
    (hl : 0 ≤ signals.liquidity.value) (hf : 0 ≤ signals.flow.value)
    (hv : 0 ≤ signals.volatility.value) (hfs : 0 ≤ signals.forcedSelling.value) :
    0 ≤ (calculateStressWithTrace signals p ls ps n).2.2 ∧
    (calculateStressWithTrace signals p ls ps n).2.2 ≤ 100 := by
  have hl' : (0:ℚ) ≤ (signals.liquidity.value : ℚ) := by exact_mod_cast hl
  have hf' : (0:ℚ) ≤ (signals.flow.value : ℚ) := by exact_mod_cast hf
  have hv' : (0:ℚ) ≤ (signals.volatility.value : ℚ) := by exact_mod_cast hv
  have hfs' : (0:ℚ) ≤ (signals.forcedSelling.value : ℚ) := by exact_mod_cast hfs
  have hraw : (0:ℚ) ≤ (signals.liquidity.value : ℚ) * weights .LIQUIDITY
      + (signals.flow.value : ℚ) * weights .FLOW
      + (signals.volatility.value : ℚ) * weights .VOLATILITY
      + (signals.forcedSelling.value : ℚ) * weights .FORCED_SELLING := by
    simp only [weights]
    nlinarith
  have hmult : (0:ℚ) ≤ 1 + (((signals.values.filter fun s => s.triggered).length : ℚ)) * (8/100) := by
    have : (0:ℚ) ≤ (((signals.values.filter fun s => s.triggered).length : ℚ)) := by positivity
    linarith
  exact smoothstep_bounds _ _ p hraw hmult hp0 hp1

/-- One `processTick` keeps the stored score in `[0,100]`, bounds the emitted
rounded score, and stores exactly the unrounded smoothed value reconstructible
from the trace. -/
theorem processTick_invariant (e : AnalyticsEngine) (tick : NormalizedMarketTick)
    (now : ℤ) (rand : ℕ) (hwf : WfTick tick)
    (h0 : 0 ≤ e.previousStress) (h1 : e.previousStress ≤ 100) :
    (0 ≤ (e.processTick tick now rand).2.previousStress ∧
      (e.processTick tick now rand).2.previousStress ≤ 100) ∧
    (0 ≤ (e.processTick tick now rand).1.stress.score ∧
      (e.processTick tick now rand).1.stress.score ≤ 100) ∧
    (e.processTick tick now rand).2.previousStress
      = (e.processTick tick now rand).1.trace.smoothing_alpha
          * (e.processTick tick now rand).1.trace.pre_smooth_score
        + (1 - (e.processTick tick now rand).1.trace.smoothing_alpha)
          * (e.processTick tick now rand).1.trace.previous_score := by
  have hb := calculate_smoothed_bounds
    { liquidity := (processLiquidity e.liquidityBuffer tick).1,
      flow := processFlow tick,
      volatility := (processVolatility e.priceBuffer tick).1,
      forcedSelling := processForcedSelling tick }
    e.previousStress
    (processLiquidity e.liquidityBuffer tick).2.size
    (processVolatility e.priceBuffer tick).2.size
    now h0 h1
    (processLiquidity_value_nonneg e.liquidityBuffer tick)
    (processFlow_value_nonneg tick)
    (processVolatility_value_nonneg e.priceBuffer tick)
    (processForcedSelling_value_nonneg tick hwf)
  refine ⟨⟨hb.1, hb.2⟩, ⟨?_, ?_⟩, rfl⟩
  · exact round_nonneg _ hb.1
  · exact round_le_hundred _ hb.2

/-- One output per processed input. -/
theorem runEngine_length (inputs : List (NormalizedMarketTick × ℤ × ℕ)) :
    ∀ e, (runEngine e inputs).1.length = inputs.length := by
  induction inputs with
  | nil => intro e; rfl
  | cons x rest ih =>
    intro e
    simp only [runEngine, List.length_cons]
    rw [ih]

/-- The engine invariant along any run: all emitted rounded scores and the
stored smoothed score stay in `[0,100]`, and the stored score equals the
unrounded smoothed value of the most recent tick's trace. -/
theorem runEngine_invariant (inputs : List (NormalizedMarketTick × ℤ × ℕ)) :
    ∀ e : AnalyticsEngine,
      (∀ p ∈ inputs, WfTick p.1) →
      0 ≤ e.previousStress → e.previousStress ≤ 100 →
      (∀ o ∈ (runEngine e inputs).1,
        0 ≤ o.stress.score ∧ o.stress.score ≤ 100) ∧
      (0 ≤ (runEngine e inputs).2.previousStress ∧
        (runEngine e inputs).2.previousStress ≤ 100) ∧
      (∀ o, (runEngine e inputs).1.getLast? = some o →
        (runEngine e inputs).2.previousStress
          = o.trace.smoothing_alpha * o.trace.pre_smooth_score
            + (1 - o.trace.smoothing_alpha) * o.trace.previous_score) := by
  induction inputs with
  | nil =>
    intro e _ h0 h1
    refine ⟨by simp [runEngine], ⟨h0, h1⟩, ?_⟩
    intro o ho
    simp [runEngine] at ho
  | cons x rest ih =>
    intro e hwf h0 h1
    have hstep := processTick_invariant e x.1 x.2.1 x.2.2 (hwf x (by simp)) h0 h1
    obtain ⟨⟨hs0, hs1⟩, hscore, hrel⟩ := hstep
    have ihr := ih (e.processTick x.1 x.2.1 x.2.2).2
      (fun p hp => hwf p (List.mem_cons_of_mem _ hp)) hs0 hs1
    refine ⟨?_, ihr.2.1, ?_⟩
    · intro o ho
      simp only [runEngine, List.mem_cons] at ho
      rcases ho with rfl | ho'
      · exact hscore
      · exact ihr.1 o ho'
    · intro o ho
      simp only [runEngine] at ho ⊢
      cases hrest : rest with
      | nil =>
        subst hrest
        simp only [runEngine, List.getLast?_singleton, Option.some.injEq] at ho
        subst ho
        exact hrel
      | cons y rest2 =>
        subst hrest
        obtain ⟨o1, outs2, houts⟩ :
            ∃ o1 outs2, (runEngine (e.processTick x.1 x.2.1 x.2.2).2 (y :: rest2)).1
              = o1 :: outs2 := by
          cases hcase : (runEngine (e.processTick x.1 x.2.1 x.2.2).2 (y :: rest2)).1 with
          | nil =>
            have := runEngine_length (y :: rest2) (e.processTick x.1 x.2.1 x.2.2).2
            rw [hcase] at this
            simp at this
          | cons a b => exact ⟨a, b, rfl⟩
        rw [houts, List.getLast?_cons_cons] at ho
        have := ihr.2.2 o (by rw [houts]; exact ho)
        exact this

/-- C8: for every tick sequence processed by a freshly constructed or reset
engine (with well-formed ticks), every emitted StressScore's score lies in
`[0, 100]`, the engine's stored previous-score state stays in `[0, 100]`, and
that stored state equals the unrounded smoothed value of the most recent tick
(`alpha × target + (1 − alpha) × previous`, reconstructed from the emitted
trace) — the rounded score is only reported, never stored. -/
theorem score_range_invariant (inputs : List (NormalizedMarketTick × ℤ × ℕ))
    (hwf : ∀ p ∈ inputs, WfTick p.1) :
    ((∀ o ∈ (runEngine AnalyticsEngine.init inputs).1,
        0 ≤ o.stress.score ∧ o.stress.score ≤ 100) ∧
      (0 ≤ (runEngine AnalyticsEngine.init inputs).2.previousStress ∧
        (runEngine AnalyticsEngine.init inputs).2.previousStress ≤ 100) ∧
      (∀ o, (runEngine AnalyticsEngine.init inputs).1.getLast? = some o →
        (runEngine AnalyticsEngine.init inputs).2.previousStress
          = o.trace.smoothing_alpha * o.trace.pre_smooth_score
            + (1 - o.trace.smoothing_alpha) * o.trace.previous_score)) ∧
    (∀ e0 : AnalyticsEngine,
      (∀ o ∈ (runEngine e0.reset inputs).1,
        0 ≤ o.stress.score ∧ o.stress.score ≤ 100) ∧
      (0 ≤ (runEngine e0.reset inputs).2.previousStress ∧
        (runEngine e0.reset inputs).2.previousStress ≤ 100) ∧
      (∀ o, (runEngine e0.reset inputs).1.getLast? = some o →
        (runEngine e0.reset inputs).2.previousStress
          = o.trace.smoothing_alpha * o.trace.pre_smooth_score
            + (1 - o.trace.smoothing_alpha) * o.trace.previous_score)) :=
  ⟨runEngine_invariant inputs AnalyticsEngine.init hwf (le_refl 0)
     (by norm_num [AnalyticsEngine.init]),
   fun e0 => runEngine_invariant inputs e0.reset hwf (le_refl 0)
     (by norm_num [AnalyticsEngine.reset])⟩

/-- C8 (witness): one well-formed neutral tick from the fresh engine. -/
theorem score_range_invariant_witness :
    (∀ p ∈ [(tick0, (0:ℤ), (0:ℕ))], WfTick p.1) ∧
    (0 ≤ (runEngine AnalyticsEngine.init [(tick0, 0, 0)]).2.previousStress ∧
      (runEngine AnalyticsEngine.init [(tick0, 0, 0)]).2.previousStress ≤ 100) := by
  have hwf : ∀ p ∈ [(tick0, (0:ℤ), (0:ℕ))], WfTick p.1 := by
    intro p hp
    simp only [List.mem_singleton] at hp
    subst hp
    intro tr htr
    simp [tick0] at htr
  exact ⟨hwf, (score_range_invariant [(tick0, 0, 0)] hwf).1.2.1⟩

/-- The guarded liquidity evaluator never fails and agrees with the code. -/
theorem processLiquidityChecked_eq (buf : CircularBuffer ℚ)
    (tick : NormalizedMarketTick) :
    processLiquidityChecked buf tick = some (processLiquidity buf tick) := by
  have hmean : meanChecked (buf.push tick.total_depth)
      = some ((buf.push tick.total_depth).mean) := by
    rw [meanChecked, CircularBuffer.mean]
    by_cases h : (buf.push tick.total_depth).buffer.length = 0
    · rw [if_pos h, if_pos h]
    · rw [if_neg h, if_neg h, divQ,
        if_neg (by exact_mod_cast h)]
  rw [processLiquidityChecked, hmean]
  by_cases hb : (buf.push tick.total_depth).mean = 0
  · simp only [Option.bind_eq_bind, Option.some_bind, if_pos hb, divQ, processLiquidity,
      if_neg (by norm_num : ¬(40:ℚ) = 0), Option.some_bind, hb]
    norm_num
  · simp only [Option.bind_eq_bind, Option.some_bind, if_neg hb, divQ, if_neg hb,
      if_neg (by norm_num : ¬(40:ℚ) = 0), processLiquidity]

/-- The guarded flow evaluator never fails and agrees with the code. -/
theorem processFlowChecked_eq (tick : NormalizedMarketTick) :
    processFlowChecked tick = some (processFlow tick) := by
  rw [processFlowChecked, processFlow]
  by_cases h : tick.trades.buy_volume + tick.trades.sell_volume = 0
  · rw [if_pos h, if_pos h]
  · rw [if_neg h, if_neg h]
    have hdiv : ¬(if 1 - tick.trades.sell_volume / (tick.trades.buy_volume + tick.trades.sell_volume) = 0
        then (1:ℚ)/100
        else 1 - tick.trades.sell_volume / (tick.trades.buy_volume + tick.trades.sell_volume)) = 0 := by
      split
      · norm_num
      · assumption
    simp only [divQ, if_neg h, if_neg hdiv, Option.bind_eq_bind, Option.some_bind]

/-- The guarded forced-selling evaluator never fails and agrees with the code. -/
theorem processForcedSellingChecked_eq (tick : NormalizedMarketTick) :
    processForcedSellingChecked tick = some (processForcedSelling tick) := by
  rw [processForcedSellingChecked, processForcedSelling]
  simp only [divQ, if_neg (by norm_num : ¬(5:ℚ) = 0), Option.bind_eq_bind,
    Option.some_bind]

/-- The guarded stddev never fails on a nonempty list and agrees with `getStd`. -/
theorem getStdChecked_eq (arr : List ℝ) (h : arr ≠ []) :
    getStdChecked arr = some (getStd arr) := by
  have hn : ¬((arr.length : ℝ) = 0) :=
    Nat.cast_ne_zero.mpr (by simpa [List.length_eq_zero] using h)
  rw [getStdChecked, getStd]
  simp only [divR, if_neg hn, Option.bind_eq_bind, Option.some_bind]

/-- The guarded volatility evaluator never fails and agrees with the code. -/
theorem processVolatilityChecked_eq (buf : CircularBuffer ℚ)
    (tick : NormalizedMarketTick) :
    processVolatilityChecked buf tick = some (processVolatility buf tick) := by
  rw [processVolatilityChecked, processVolatility]
  by_cases hlt : (buf.push tick.price).getAll.length < 20
  · rw [if_pos hlt, if_pos hlt]
  · rw [if_neg hlt, if_neg hlt]
    have hne1 : ((buf.push tick.price).getAll.drop
        ((buf.push tick.price).getAll.length - 10)).map (fun q : ℚ => (q : ℝ)) ≠ [] := by
      intro h0
      have h1 := congrArg List.length h0
      rw [List.length_map, List.length_drop, List.length_nil] at h1
      omega
    have hne2 : ((buf.push tick.price).getAll.map fun q : ℚ => (q : ℝ)) ≠ [] := by
      intro h0
      have h1 := congrArg List.length h0
      rw [List.length_map, List.length_nil] at h1
      omega
    have hdiv : ¬((if getStd ((buf.push tick.price).getAll.map fun q : ℚ => (q : ℝ)) = 0
        then (1:ℝ)
        else getStd ((buf.push tick.price).getAll.map fun q : ℚ => (q : ℝ))) = 0) := by
      split
      · norm_num
      · assumption
    simp only [getStdChecked_eq _ hne1, getStdChecked_eq _ hne2, divR,
      if_neg hdiv, Option.bind_eq_bind, Option.some_bind]

/-- The guarded weight contribution never fails and agrees with the code. -/
theorem wcChecked_eq (rawStress : ℚ) (sig : SignalOutput) :
    wcChecked rawStress sig = some
      { signal := sig.name, weight := weights sig.name, raw_value := sig.value,
        contribution := sig.value * weights sig.name,
        pct_of_total :=
          if rawStress > 0 then (sig.value * weights sig.name) / rawStress * 100
          else 0 } := by
  rw [wcChecked]
  by_cases h : rawStress > 0
  · simp only [if_pos h, divQ, if_neg (ne_of_gt h), Option.bind_eq_bind,
      Option.some_bind]
  · simp only [if_neg h, Option.bind_eq_bind, Option.some_bind]

/-- The guarded aggregator never fails and agrees with the code. -/
theorem calculateStressWithTraceChecked_eq (signals : Signals) (p : ℚ)
    (ls ps : ℕ) (n : ℤ) :
    calculateStressWithTraceChecked signals p ls ps n
      = some (calculateStressWithTrace signals p ls ps n) := by
  rw [calculateStressWithTraceChecked, calculateStressWithTrace]
  have hlen : ¬((([confNum signals.liquidity.confidence, confNum signals.flow.confidence,
      confNum signals.volatility.confidence,
      confNum signals.forcedSelling.confidence].length) : ℚ) = 0) := by
    simp
  simp only [Signals.values, divQ, List.map_cons, List.map_nil, if_neg hlen,
    wcChecked_eq, List.mapM_cons, List.mapM_nil, Option.bind_eq_bind,
    Option.some_bind, Option.pure_def]

/-- The guarded pipeline never fails and agrees with `processTick`. -/
theorem processTickChecked_eq (e : AnalyticsEngine) (tick : NormalizedMarketTick)
    (now : ℤ) (rand : ℕ) :
    processTickChecked e tick now rand = some (e.processTick tick now rand) := by
  rw [processTickChecked, AnalyticsEngine.processTick]
  simp only [processLiquidityChecked_eq, processFlowChecked_eq,
    processVolatilityChecked_eq, processForcedSellingChecked_eq,
    calculateStressWithTraceChecked_eq, Option.bind_eq_bind, Option.some_bind]

/-- C7: the per-tick pipeline with every division guarded against a zero
denominator always succeeds and agrees with `processTick` (so no division by a
zero denominator and no exception occurs on any tick); and the degenerate
inputs get fallbacks — zero total volume yields the default flow signal, a
zero liquidity-window baseline yields liquidity risk 0 untriggered, and a
price window under 20 samples yields the default volatility signal. -/
theorem degenerate_fallbacks :
    (∀ (e : AnalyticsEngine) (tick : NormalizedMarketTick) (now : ℤ) (rand : ℕ),
      processTickChecked e tick now rand = some (e.processTick tick now rand)) ∧
    (∀ tick : NormalizedMarketTick,
      tick.trades.buy_volume + tick.trades.sell_volume = 0 →
      processFlow tick = defaultSignal .FLOW tick.processing_timestamp) ∧
    (∀ (buf : CircularBuffer ℚ) (tick : NormalizedMarketTick),
      (buf.push tick.total_depth).mean = 0 →
      (processLiquidity buf tick).1.value = 0 ∧
      (processLiquidity buf tick).1.triggered = false) ∧
    (∀ (buf : CircularBuffer ℚ) (tick : NormalizedMarketTick),
      (buf.push tick.price).getAll.length < 20 →
      (processVolatility buf tick).1
        = defaultSignal .VOLATILITY tick.processing_timestamp) := by
  refine ⟨processTickChecked_eq, ?_, ?_, ?_⟩
  · intro tick h
    simp [processFlow, h]
  · intro buf tick h
    simp [processLiquidity, h]
  · intro buf tick h
    simp only [processVolatility]
    rw [if_pos h]

/-- C7 (witness): the all-zero tick exercises all three fallbacks. -/
theorem degenerate_fallbacks_witness :
    (tick0.trades.buy_volume + tick0.trades.sell_volume = 0 ∧
      processFlow tick0 = defaultSignal .FLOW tick0.processing_timestamp) ∧
    (((CircularBuffer.mkEmpty ℚ 300).push tick0.total_depth).mean = 0 ∧
      (processLiquidity (CircularBuffer.mkEmpty ℚ 300) tick0).1.value = 0 ∧
      (processLiquidity (CircularBuffer.mkEmpty ℚ 300) tick0).1.triggered = false) ∧
    (((CircularBuffer.mkEmpty ℚ 300).push tick0.price).getAll.length < 20 ∧
      (processVolatility (CircularBuffer.mkEmpty ℚ 300) tick0).1
        = defaultSignal .VOLATILITY tick0.processing_timestamp) := by
  have h1 : tick0.trades.buy_volume + tick0.trades.sell_volume = 0 := by
    norm_num [tick0]
  have h2 : ((CircularBuffer.mkEmpty ℚ 300).push tick0.total_depth).mean = 0 := by
    norm_num [CircularBuffer.mkEmpty, CircularBuffer.push, CircularBuffer.mean, tick0]
  have h3 : ((CircularBuffer.mkEmpty ℚ 300).push tick0.price).getAll.length < 20 := by
    simp [CircularBuffer.mkEmpty, CircularBuffer.push, CircularBuffer.getAll]
  exact ⟨⟨h1, degenerate_fallbacks.2.1 tick0 h1⟩,
    ⟨h2, degenerate_fallbacks.2.2.1 (CircularBuffer.mkEmpty ℚ 300) tick0 h2⟩,
    ⟨h3, degenerate_fallbacks.2.2.2 (CircularBuffer.mkEmpty ℚ 300) tick0 h3⟩⟩

end Sentinel
